import Mathlib

/-!
Verification development for the Time-Series-Visualizer repository.

The Python sources (`data.py`, `main.py`) are shallowly embedded below:
numbers are modelled as exact rationals (`ℚ`), numpy arrays and Python
lists as `List ℚ`, Python dictionaries as insertion-ordered association
lists, and fallible code (exceptions) as `Except`.  Python `int(r)` on the
nonnegative floats that occur in the LTTB bucket arithmetic is `⌊r⌋`.
-/

namespace TSV

/-! ### Generic first-argmax fold

Both `lttb_downsample` (the `area > max_area` scan, `data.py` lines 92-104)
and `np.argmax` (used by `cross_correlate_lag`, `main.py` line 74) scan a
range keeping the first strict maximum.  `amRun f s len acc` folds
`fun acc j => if acc.1 < f j then (f j, j) else acc` over
`List.range' s len`. -/

def amStep (f : ℕ → ℚ) (acc : ℚ × ℕ) (j : ℕ) : ℚ × ℕ :=
  if acc.1 < f j then (f j, j) else acc

def amRun (f : ℕ → ℚ) (s len : ℕ) (acc : ℚ × ℕ) : ℚ × ℕ :=
  (List.range' s len).foldl (amStep f) acc

/-! ### LTTB downsampler (`data.py`, `lttb_downsample`, lines 47-114)

`x` and `y` are the input arrays, `n = len(x)`.  Python `x[i]` on the
in-range indices that occur is `getQ`; `int(r)` on the nonnegative reals
that occur here is `⌊r⌋` (made total with `Int.toNat`). -/

def getQ (l : List ℚ) (i : ℕ) : ℚ := l.getD i 0

/-- Python slice `l[s:e]` for nonnegative `s`, `e` (clips like Python). -/
def pySlice (l : List ℚ) (s e : ℕ) : List ℚ := (l.take e).drop s

/-- line 69: `bucket_size = (n - 2) / (target_points - 2)`. -/
def bucketSize (n K : ℕ) : ℚ := ((n : ℚ) - 2) / ((K : ℚ) - 2)

/-- line 75: `bucket_start = int((i + 1) * bucket_size) + 1`. -/
def bStart (n K : ℕ) (i : ℕ) : ℕ := (⌊((i : ℚ) + 1) * bucketSize n K⌋).toNat + 1

/-- lines 76-77: `bucket_end = min(int((i + 2) * bucket_size) + 1, n - 1)`. -/
def bEnd (n K : ℕ) (i : ℕ) : ℕ := min ((⌊((i : ℚ) + 2) * bucketSize n K⌋).toNat + 1) (n - 1)

/-- `np.mean(l[s:e])` (sum divided by length; `0` on the empty slice,
which does not occur under the theorems' hypotheses). -/
def sliceMeanQ (l : List ℚ) (s e : ℕ) : ℚ :=
  ((pySlice l s e).sum) / ((pySlice l s e).length : ℚ)

/-- lines 80-89: the averaged point of the next bucket
(`avg_x`, `avg_y`), falling back to the last point when the next bucket
starts beyond the array. -/
def lttbNext (x y : List ℚ) (n K : ℕ) (i : ℕ) : ℚ × ℚ :=
  let ns := (⌊((i : ℚ) + 2) * bucketSize n K⌋).toNat + 1
  let ne := min ((⌊((i : ℚ) + 3) * bucketSize n K⌋).toNat + 1) n
  if ns < n then (sliceMeanQ x ns ne, sliceMeanQ y ns ne)
  else (getQ x (n - 1), getQ y (n - 1))

/-- lines 97-100: the triangle area formed with the previous selected
point `(xa, ya)` and the next-bucket average `(avgx, avgy)`. -/
def triArea (xa ya avgx avgy xj yj : ℚ) : ℚ :=
  |(xa - avgx) * (yj - ya) - (xa - xj) * (avgy - ya)| * (1 / 2)

def areaAt (x y : List ℚ) (a : ℕ) (av : ℚ × ℚ) (j : ℕ) : ℚ :=
  triArea (getQ x a) (getQ y a) av.1 av.2 (getQ x j) (getQ y j)

/-- lines 92-104: `max_area = -1; max_idx = bucket_start;` then scan
`j ∈ [bucket_start, bucket_end)` keeping the first strict maximum. -/
def argmaxArea (f : ℕ → ℚ) (s e : ℕ) : ℕ := (amRun f s (e - s) (-1, s)).2

/-- One iteration of the `for i in range(target_points - 2)` loop:
the index appended for loop counter `i` given the previously selected
index `a`. -/
def lttbStep (x y : List ℚ) (n K : ℕ) (i a : ℕ) : ℕ :=
  argmaxArea (areaAt x y a (lttbNext x y n K i)) (bStart n K i) (bEnd n K i)

/-- The interior selected indices: `fuel` iterations remaining, current
loop counter `i`, previously selected index `a`. -/
def lttbInterior (x y : List ℚ) (n K : ℕ) : ℕ → ℕ → ℕ → List ℕ
  | 0, _, _ => []
  | fuel + 1, i, a =>
    lttbStep x y n K i a :: lttbInterior x y n K fuel (i + 1) (lttbStep x y n K i a)

/-- All selected source indices: first point, the `target_points - 2`
interior selections, and the last point (lines 64-66, 106-112). -/
def lttbIndices (x y : List ℚ) (K : ℕ) : List ℕ :=
  (0 :: lttbInterior x y x.length K (K - 2) 0 0) ++ [x.length - 1]

/-- `lttb_downsample(x, y, target_points)` (`data.py` lines 47-114):
returns the input unchanged when `n <= target_points`, otherwise the
samples at the selected indices. -/
def lttb_downsample (x y : List ℚ) (target_points : ℕ) : List ℚ × List ℚ :=
  if x.length ≤ target_points then (x, y)
  else ((lttbIndices x y target_points).map (getQ x),
        (lttbIndices x y target_points).map (getQ y))

/-! ### Cross-correlation lag
(`main.py`, `AlignmentService.cross_correlate_lag`, lines 60-79) -/

/-- Zero-extension of a finite signal to integer indices. -/
def zext (s : List ℚ) (i : ℤ) : ℚ :=
  if 0 ≤ i ∧ i < (s.length : ℤ) then s.getD i.toNat 0 else 0

/-- `np.mean(s)`. -/
def meanQ (s : List ℚ) : ℚ := s.sum / (s.length : ℚ)

/-- lines 67-68: subtract each input's arithmetic mean. -/
def meanSub (s : List ℚ) : List ℚ := s.map (fun v => v - meanQ s)

/-- `scipy.signal.correlate(a, v, mode="full")` at output index `k`
(line 71; `0 ≤ k < len(a) + len(v) - 1`):
`c[k] = Σ_j a[j] · v[j - (k - (len(v) - 1))]` with zero extension. -/
def corrFull (a v : List ℚ) (k : ℕ) : ℚ :=
  ∑ j ∈ Finset.range a.length,
    zext a (j : ℤ) * zext v ((j : ℤ) - ((k : ℤ) - ((v.length : ℤ) - 1)))

/-- `np.argmax` over `c[0..m)`: the first index attaining the maximum
(line 74), as a scan from index 1 seeded with `c[0]`. -/
def npArgmax (f : ℕ → ℚ) (m : ℕ) : ℕ := (amRun f 1 (m - 1) (f 0, 0)).2

/-- `cross_correlate_lag(template, target)` (`main.py` lines 60-79):
mean-subtract both inputs, full cross-correlation, first argmax, then
`lag = argmax - (len(target) - 1)`. -/
def cross_correlate_lag (template target : List ℚ) : ℤ :=
  (npArgmax (corrFull (meanSub template) (meanSub target))
      (template.length + target.length - 1) : ℤ) - ((target.length : ℤ) - 1)

/-- Autocorrelation of the zero-extended signal at displacement `d`. -/
def acorrZ (s : List ℚ) (d : ℤ) : ℚ :=
  ∑ j ∈ Finset.range s.length, zext s (j : ℤ) * zext s ((j : ℤ) - d)

/-- The shifted signal of the claim: `shiftSig s k` has `t[i] = s[i+k]`
(zero outside), i.e. for positive `k` the target must shift right by `k`
to match the template — the code's documented sign convention. -/
def shiftSig (s : List ℚ) (k : ℤ) : List ℚ :=
  (List.range s.length).map (fun (i : ℕ) => zext s ((i : ℤ) + k))

/-! ### Data model: series, datasets, registry (`data.py`)

Python dictionaries are modelled as insertion-ordered association lists
with first-match lookup (keys are unique in every reachable state). -/

structure Series where
  x : List ℚ
  y : List ℚ
deriving DecidableEq

structure Metadata where
  total_rows : ℕ
  channels : List String
  time_range : ℚ × ℚ
deriving DecidableEq

def emptyMetadata : Metadata := ⟨0, [], (0, 0)⟩

/-- Association-list lookup modelling Python `dict.get`. -/
def alookup {α : Type} (l : List (String × α)) (k : String) : Option α :=
  match l with
  | [] => none
  | (k', v) :: t => if k' = k then some v else alookup t k

/-- The in-model contents of the columnar cache for one large file: the
time array and the per-channel arrays that `np.load` would return.  A
channel missing from `chans` models a missing channel cache file
(`FileNotFoundError`); the time cache is taken as present, since every
claim under verification exercises only channel-file failures. -/
structure LargeHandler where
  time : List ℚ
  chans : List (String × List ℚ)
deriving DecidableEq

/-- One record of `multi_channel_datasets`
(`add_multi_channel_file`, `data.py` lines 478-489). -/
structure Dataset where
  name : String
  filename : String
  filepath : String
  file_size_mb : ℚ
  is_large_file : Bool
  metadata : Metadata
  channels : List String
  data : List (String × Series)
  large_file_handler : Option LargeHandler
deriving DecidableEq

/-- The mutable fields of `MultiSeriesData` (`data.py` lines 408-422). -/
structure MSD where
  file_list : List String
  data : List (String × Series)
  multi_channel_mode : Bool
  channel_names : List (String × String)
  channel_offsets : List (String × ℚ)
  channel_cut_ranges : List (String × (ℤ × ℤ))
  multi_channel_datasets : List (String × Dataset)
  multi_channel_order : List String
  large_file_handler : Option LargeHandler
  is_large_file : Bool
  metadata : Metadata
deriving DecidableEq

/-- `MultiSeriesData.clear_data` (`data.py` lines 836-849): resets every
in-memory registry and side-table (the mode flag is not touched). -/
def clear_data (st : MSD) : MSD :=
  { st with
    data := [], file_list := [], channel_names := [], channel_offsets := [],
    channel_cut_ranges := [], large_file_handler := none, is_large_file := false,
    metadata := emptyMetadata, multi_channel_datasets := [], multi_channel_order := [] }

/-- The filesystem state the facade touches: names of uploaded files and
of files in the process cache directory (`.cache/*.npy`). -/
structure ServerState where
  msd : MSD
  upload_files : List String
  cache_files : List String
deriving DecidableEq

/-- `POST /clear` (`main.py`, `clear_all_data`, lines 319-339): clears
the in-memory state and deletes the `*.csv` uploads; no statement in it
touches the cache directory.  Returns the new state and the deleted
upload names. -/
def clear_all_data (s : ServerState) : ServerState × List String :=
  ({ msd := clear_data s.msd,
     upload_files := s.upload_files.filter (fun f => !(f.endsWith ".csv")),
     cache_files := s.cache_files },
   s.upload_files.filter (fun f => f.endsWith ".csv"))

/-- `MultiSeriesData.update_dataset_name` (`data.py` lines 641-646). -/
def update_dataset_name (st : MSD) (dataset_id nm : String) : Bool × MSD :=
  match alookup st.multi_channel_datasets dataset_id with
  | none => (false, st)
  | some _ =>
    (true,
     { st with multi_channel_datasets :=
        (st.multi_channel_datasets.map
          (fun p => if p.1 = dataset_id then (p.1, { p.2 with name := nm }) else p)) })

/-! ### Slice/query engine (`data.py` lines 336-398, 546-600, 699-756) -/

/-- `_resolve_dataset` (`data.py` lines 546-551): a truthy id that is
present wins; otherwise the most recently added dataset. -/
def resolveDataset (st : MSD) (dataset_id : Option String) : Option Dataset :=
  match (match dataset_id with
         | some i => if i = "" then none else alookup st.multi_channel_datasets i
         | none => none) with
  | some d => some d
  | none =>
    match st.multi_channel_order.getLast? with
    | some lid => alookup st.multi_channel_datasets lid
    | none => none

/-- `MultiChannelLargeFileHandler.get_channel_data` (`data.py` lines
336-380): slice `[start:end)` of the cached arrays, LTTB when the slice
exceeds the target.  A missing channel cache file raises
`FileNotFoundError`, modelled as `Except.error`. -/
def handler_get_channel_data (h : LargeHandler) (channel_id : String)
    (start_idx : ℕ) (end_idx : Option ℕ) (target_points : ℕ) :
    Except String (List ℚ × List ℚ) :=
  match alookup h.chans channel_id with
  | none => .error ("missing channel cache: " ++ channel_id)
  | some vals =>
    let e := match end_idx with
      | none => h.time.length
      | some e0 => e0
    let ts := pySlice h.time start_idx e
    let vs := pySlice vals start_idx e
    if target_points < ts.length then .ok (lttb_downsample ts vs target_points)
    else .ok (ts, vs)

/-- `np.searchsorted(a, v, side="left")` on the sorted time arrays the
code applies it to: the number of elements `< v`. -/
def lowerBound (l : List ℚ) (v : ℚ) : ℕ := l.countP (fun a => decide (a < v))

/-- `np.searchsorted(a, v, side="right")`: the number of elements `≤ v`. -/
def upperBound (l : List ℚ) (v : ℚ) : ℕ := l.countP (fun a => decide (a ≤ v))

/-- `get_channel_data_by_time` (`data.py` lines 382-398). -/
def handler_get_channel_data_by_time (h : LargeHandler) (channel_id : String)
    (start_time end_time : ℚ) (target_points : ℕ) : Except String (List ℚ × List ℚ) :=
  handler_get_channel_data h channel_id (lowerBound h.time start_time)
    (some (upperBound h.time end_time)) target_points

/-- The small-dataset branch of `get_multi_channel_channel_data`
(`data.py` lines 585-600): default and clip `end_idx`, slice, LTTB when
the slice exceeds the target. -/
def small_channel_slice (ds : Dataset) (channel_id : String) (start_idx : ℕ)
    (end_idx : Option ℕ) (target_points : ℕ) : Series :=
  match alookup ds.data channel_id with
  | none => ⟨[], []⟩
  | some ser =>
    let n := ser.x.length
    let e := match end_idx with
      | none => n
      | some e0 => if e0 > n then n else e0
    let xs := pySlice ser.x start_idx e
    let ys := pySlice ser.y start_idx e
    if target_points < xs.length then
      ⟨(lttb_downsample xs ys target_points).1, (lttb_downsample xs ys target_points).2⟩
    else ⟨xs, ys⟩

/-- `get_multi_channel_channel_data` (`data.py` lines 567-600). -/
def get_multi_channel_channel_data (st : MSD) (dataset_id : Option String)
    (channel_id : String) (start_idx : ℕ) (end_idx : Option ℕ) (target_points : ℕ) :
    Except String Series :=
  match resolveDataset st dataset_id with
  | none => .ok ⟨[], []⟩
  | some ds =>
    if ds.is_large_file ∧ ds.large_file_handler.isSome then
      match ds.large_file_handler with
      | some h =>
        (handler_get_channel_data h channel_id start_idx end_idx target_points).map
          (fun p => ⟨p.1, p.2⟩)
      | none => .ok (small_channel_slice ds channel_id start_idx end_idx target_points)
    else .ok (small_channel_slice ds channel_id start_idx end_idx target_points)

/-- `get_channel_data_downsampled` (`data.py` lines 699-721): the legacy
branch returns the stored series in full, ignoring the slice bounds and
the target point count. -/
def get_channel_data_downsampled (st : MSD) (channel_id : String) (start_idx : ℕ)
    (end_idx : Option ℕ) (target_points : ℕ) : Except String Series :=
  if st.is_large_file ∧ st.large_file_handler.isSome then
    match st.large_file_handler with
    | some h =>
      (handler_get_channel_data h channel_id start_idx end_idx target_points).map
        (fun p => ⟨p.1, p.2⟩)
    | none => .ok ⟨[], []⟩
  else
    match alookup st.data channel_id with
    | some ser => .ok ser
    | none => .ok ⟨[], []⟩

/-- The row filter of the legacy time-range path (`data.py` lines
746-756), pairing `x` with `y` positionally. -/
def timeFilter (ser : Series) (t0 t1 : ℚ) : Series :=
  ⟨((ser.x.zip ser.y).filter (fun p => decide (t0 ≤ p.1 ∧ p.1 ≤ t1))).map Prod.fst,
   ((ser.x.zip ser.y).filter (fun p => decide (t0 ≤ p.1 ∧ p.1 ≤ t1))).map Prod.snd⟩

/-- `get_channel_data_by_time_range` (`data.py` lines 723-756): the
legacy branch filters by time but never downsamples. -/
def get_channel_data_by_time_range (st : MSD) (channel_id : String)
    (start_time end_time : ℚ) (target_points : ℕ) : Except String Series :=
  if st.is_large_file ∧ st.large_file_handler.isSome then
    match st.large_file_handler with
    | some h =>
      (handler_get_channel_data_by_time h channel_id start_time end_time
        target_points).map (fun p => ⟨p.1, p.2⟩)
    | none => .ok ⟨[], []⟩
  else
    match alookup st.data channel_id with
    | none => .ok ⟨[], []⟩
    | some ser => .ok (timeFilter ser start_time end_time)

structure ChannelDataResp where
  err : Option String
  data : Series
deriving DecidableEq

/-- `GET /channel-data/{channel_id}` (`main.py`, `get_channel_data`,
lines 354-387): an exception produces an envelope carrying `error` and
an empty series; otherwise no `error` field is present. -/
def ep_get_channel_data (st : MSD) (channel_id : String) (dataset_id : Option String)
    (start_idx : ℕ) (end_idx : Option ℕ) (target_points : ℕ) : ChannelDataResp :=
  match (if st.multi_channel_mode then
           get_multi_channel_channel_data st dataset_id channel_id start_idx end_idx
             target_points
         else
           get_channel_data_downsampled st channel_id start_idx end_idx target_points) with
  | .ok d => ⟨none, d⟩
  | .error msg => ⟨some msg, ⟨[], []⟩⟩

/-! ### Columnar cache checks
(`data.py`, `MultiChannelLargeFileHandler`, lines 246-266, 491-497) -/

/-- Channel identifiers `AI2-01 … AI2-16` (`data.py` lines 9, 262-263). -/
def chanName (i : ℕ) : String :=
  "AI2-" ++ (if i < 10 then "0" ++ toString i else toString i)

/-- `get_cache_path` (`data.py` lines 246-249): the cache filename
`<stem>_<channel>_<key>.npy`; `stem` and `key` abstract the source file
stem and the `hash((abspath, mtime))` digest. -/
def get_cache_path (stem key channel_id : String) : String :=
  stem ++ "_" ++ channel_id ++ "_" ++ key ++ ".npy"

def get_time_cache_path (stem key : String) : String := get_cache_path stem key "time"

/-- `is_cached` (`data.py` lines 256-266) over an abstract file-exists
predicate: the time cache must exist, then the loop over `AI2-01 …
AI2-16` returns `True` at the first channel cache that exists. -/
def is_cached (fs_exists : String → Bool) (stem key : String) : Bool :=
  fs_exists (get_time_cache_path stem key) &&
    (List.range' 1 16).any (fun i => fs_exists (get_cache_path stem key (chanName i)))

/-- The branch of `add_multi_channel_file` (`data.py` lines 491-497)
deciding whether ingest reuses the cache instead of re-materialising:
only files above the 50 MB threshold consult `is_cached`. -/
def ingest_reuses_cache (fs_exists : String → Bool) (stem key : String)
    (file_size : ℕ) : Bool :=
  decide (file_size > 50 * 1024 * 1024) && is_cached fs_exists stem key

/-! ### CSV parsing of multi-column rows
(`TimeSeriesData.load_data`, `data.py` lines 170-215)

A parsed cell is `Option ℚ`: `none` is an empty or missing cell; a
present non-numeric cell aborts the whole ingest, so the rows of every
successful ingest are lists of optional rationals. -/

/-- The series collected for column `c` when column `timeIdx` is the
time column (lines 195-213): a row is skipped entirely when its time
cell is missing or empty; a missing or empty `c` cell skips only that
cell while the row still contributes to other columns. -/
def colSeries (timeIdx c : ℕ) (rows : List (List (Option ℚ))) : Series :=
  ⟨(rows.filterMap (fun row =>
      match row.getD timeIdx none with
      | none => none
      | some t =>
        match row.getD c none with
        | none => none
        | some v => some (t, v))).map Prod.fst,
   (rows.filterMap (fun row =>
      match row.getD timeIdx none with
      | none => none
      | some t =>
        match row.getD c none with
        | none => none
        | some v => some (t, v))).map Prod.snd⟩

/-- The multi-column branch of `load_data` with a detected time column
(lines 185-213): every non-time column becomes a series. -/
def load_data_multi (colNames : List String) (timeIdx : ℕ)
    (rows : List (List (Option ℚ))) : List (String × Series) :=
  ((List.range colNames.length).filter (fun c => c ≠ timeIdx)).map
    (fun c => (colNames.getD c "", colSeries timeIdx c rows))

/-- `_build_small_dataset_metadata` (`data.py` lines 456-469):
`total_rows` and `time_range` come from the x-array of the FIRST
channel only. -/
def build_small_dataset_metadata (data : List (String × Series)) : Metadata :=
  match data with
  | [] => ⟨0, [], (0, 0)⟩
  | (_, s) :: _ =>
    if s.x.length ≠ 0 then
      ⟨s.x.length, data.map Prod.fst, (s.x.getD 0 0, s.x.getD (s.x.length - 1) 0)⟩
    else ⟨0, data.map Prod.fst, (0, 0)⟩

/-! ### Dataset alignment (`data.py` lines 648-697,
`main.py` lines 465-522) -/

/-- `np.diff`. -/
def diffList (l : List ℚ) : List ℚ := (l.zip l.tail).map (fun p => p.2 - p.1)

/-- `np.median`: sort ascending; the middle element for odd length, the
mean of the two central elements for even length (`0` for the empty
array, which the caller excludes). -/
def medianQ (l : List ℚ) : ℚ :=
  if l.length = 0 then 0
  else if l.length % 2 = 1 then (l.insertionSort (· ≤ ·)).getD (l.length / 2) 0
  else ((l.insertionSort (· ≤ ·)).getD (l.length / 2 - 1) 0
    + (l.insertionSort (· ≤ ·)).getD (l.length / 2) 0) / 2

/-- `get_alignment_series` (`data.py` lines 648-697): `Except.ok none`
models the Python `None` returns (dataset missing, channel missing, or
empty x); `Except.error` models a `FileNotFoundError` propagating from
the cache layer.  `lowerBound`/`upperBound` model `np.searchsorted` on
the (sorted) time array. -/
def get_alignment_series (st : MSD) (dataset_id channel_id : String)
    (start_time end_time : Option ℚ) (target_points : ℕ) :
    Except String (Option (List ℚ × List ℚ)) :=
  match alookup st.multi_channel_datasets dataset_id with
  | none => .ok none
  | some ds =>
    if ds.is_large_file ∧ ds.large_file_handler.isSome then
      match ds.large_file_handler with
      | none => .ok none
      | some h =>
        if start_time.isSome ∨ end_time.isSome then
          match handler_get_channel_data_by_time h channel_id
              (start_time.getD ds.metadata.time_range.1)
              (end_time.getD ds.metadata.time_range.2) target_points with
          | .error msg => .error msg
          | .ok p => .ok (some p)
        else
          match handler_get_channel_data h channel_id 0 none target_points with
          | .error msg => .error msg
          | .ok p => .ok (some p)
    else
      match alookup ds.data channel_id with
      | none => .ok none
      | some ser =>
        if ser.x.length = 0 then .ok none
        else
          let p :=
            if start_time.isSome ∨ end_time.isSome then
              (pySlice ser.x (lowerBound ser.x (start_time.getD (ser.x.getD 0 0)))
                 (upperBound ser.x (end_time.getD (ser.x.getD (ser.x.length - 1) 0))),
               pySlice ser.y (lowerBound ser.x (start_time.getD (ser.x.getD 0 0)))
                 (upperBound ser.x (end_time.getD (ser.x.getD (ser.x.length - 1) 0))))
            else (ser.x, ser.y)
          if target_points < p.1.length then
            .ok (some (lttb_downsample p.1 p.2 target_points))
          else .ok (some p)

structure AlignResp where
  err : Option String
  offsets : List (String × ℚ)
deriving DecidableEq

/-- Python dict assignment `offsets[id] = v`: overwrite in place when
the key exists, else append. -/
def upsert (l : List (String × ℚ)) (k : String) (v : ℚ) : List (String × ℚ) :=
  if (alookup l k).isSome then l.map (fun p => if p.1 = k then (p.1, v) else p)
  else l ++ [(k, v)]

/-- The `for dataset_id in dataset_ids` loop of
`align_multi_channel_datasets` (`main.py` lines 500-516). -/
def alignLoop (st : MSD) (channel_id : String) (start_time end_time : Option ℚ)
    (target_points : ℕ) (reference_id : String) (ref_y : List ℚ) (dt : ℚ) :
    List String → List (String × ℚ) → Except String (List (String × ℚ))
  | [], acc => .ok acc
  | id :: rest, acc =>
    if id = reference_id then
      alignLoop st channel_id start_time end_time target_points reference_id ref_y dt
        rest acc
    else
      match get_alignment_series st id channel_id start_time end_time target_points with
      | .error msg => .error msg
      | .ok none =>
        alignLoop st channel_id start_time end_time target_points reference_id ref_y dt
          rest (upsert acc id 0)
      | .ok (some (_, ty)) =>
        if ty.length < 2 then
          alignLoop st channel_id start_time end_time target_points reference_id ref_y dt
            rest (upsert acc id 0)
        else
          alignLoop st channel_id start_time end_time target_points reference_id ref_y dt
            rest (upsert acc id (((cross_correlate_lag ref_y ty : ℤ) : ℚ) * dt))

/-- lines 474-476: `reference_id = request.reference_dataset_id or
dataset_ids[0]`, falling back to `dataset_ids[0]` when the named id is
not in the list (an empty string is falsy). -/
def alignRefId (dataset_ids : List String) (reference_dataset_id : Option String) :
    String :=
  let ref0 := match reference_dataset_id with
    | some r => if r = "" then dataset_ids.getD 0 "" else r
    | none => dataset_ids.getD 0 ""
  if ref0 ∈ dataset_ids then ref0 else dataset_ids.getD 0 ""

/-- line 481: `target_points = request.target_points or 5000`
(`0` is falsy). -/
def alignTargetPoints (target_points_req : Option ℕ) : ℕ :=
  match target_points_req with
  | some k => if k = 0 then 5000 else k
  | none => 5000

/-- lines 494-496: the reference time step — the median of the diffs of
the reference x-array, replaced by `1.0` when it is `0` (or non-finite,
which cannot arise over `ℚ`); the `len > 1` guard is always true at this
point because shorter references were rejected earlier. -/
def alignDt (ref_x : List ℚ) : ℚ :=
  let dt0 := if 1 < ref_x.length then medianQ (diffList ref_x) else 1
  if dt0 = 0 then 1 else dt0

/-- The value the loop body stores for a non-reference dataset id
(`main.py` lines 503-516), flattened per id. -/
def alignExpectedOffset (st : MSD) (channel_id : String)
    (start_time end_time : Option ℚ) (target_points : ℕ) (ref_y : List ℚ) (dt : ℚ)
    (id : String) : ℚ :=
  match get_alignment_series st id channel_id start_time end_time target_points with
  | .error _ => 0
  | .ok none => 0
  | .ok (some (_, ty)) =>
    if ty.length < 2 then 0 else ((cross_correlate_lag ref_y ty : ℤ) : ℚ) * dt

/-- `POST /multi-channel/align-datasets`
(`main.py`, `align_multi_channel_datasets`, lines 465-522). -/
def align_multi_channel_datasets (st : MSD) (dataset_ids : List String)
    (channel_id : String) (reference_dataset_id : Option String)
    (cut_range : Option (ℚ × ℚ)) (target_points_req : Option ℕ) :
    Except String AlignResp :=
  if dataset_ids.length < 2 then
    .ok ⟨some "Need at least two datasets to align", []⟩
  else
    let reference_id := alignRefId dataset_ids reference_dataset_id
    let start_time := cut_range.map Prod.fst
    let end_time := cut_range.map Prod.snd
    let target_points := alignTargetPoints target_points_req
    match get_alignment_series st reference_id channel_id start_time end_time
        target_points with
    | .error msg => .error msg
    | .ok none => .ok ⟨some "Reference dataset or channel not found", []⟩
    | .ok (some (ref_x, ref_y)) =>
      if ref_x.length < 2 ∨ ref_y.length < 2 then
        .ok ⟨some "Reference dataset has insufficient data", []⟩
      else
        match alignLoop st channel_id start_time end_time target_points reference_id
            ref_y (alignDt ref_x) dataset_ids [(reference_id, 0)] with
        | .error msg => .error msg
        | .ok offsets => .ok ⟨none, offsets⟩

/-- A small dataset whose channel `c` has a CONSTANT time array
`[0, 0, 0]` (so the median inter-sample delta is `0`) and values
`[0, 1, 0]`. -/
def exAlDs1 : Dataset :=
  ⟨"n1", "f1.csv", "/tmp/f1.csv", 1, false, emptyMetadata, ["c"],
   [("c", ⟨[0, 0, 0], [0, 1, 0]⟩)], none⟩

/-- A second small dataset over the same channel, with values
`[1, 0, 0]` — the reference values shifted by one sample. -/
def exAlDs2 : Dataset :=
  ⟨"n2", "f2.csv", "/tmp/f2.csv", 1, false, emptyMetadata, ["c"],
   [("c", ⟨[0, 0, 0], [1, 0, 0]⟩)], none⟩

/-- Registry holding the two alignment example datasets. -/
def exAlSt : MSD :=
  ⟨[], [], true, [], [], [], [("d1", exAlDs1), ("d2", exAlDs2)], ["d1", "d2"],
   none, false, emptyMetadata⟩

/-- A filesystem holding only the time cache and the `AI2-01` channel
cache for stem `rec`, key `k1`. -/
def exCacheFS : String → Bool := fun f =>
  (f == get_time_cache_path "rec" "k1") || (f == get_cache_path "rec" "k1" "AI2-01")

/-- The legacy flat-map state used by the C7 counterexample: one stored
series of five points, no large-file handler. -/
def exLegacySt : MSD :=
  ⟨[], [("c", ⟨[0, 1, 2, 3, 4], [5, 6, 7, 8, 9]⟩)], false, [], [], [], [], [], none,
   false, emptyMetadata⟩

/-- A small multi-channel dataset used by the C7 and C9 witnesses. -/
def exDs : Dataset :=
  ⟨"n", "f.csv", "/tmp/f.csv", 1, false, emptyMetadata, ["c"],
   [("c", ⟨[0, 1, 2], [3, 4, 5]⟩)], none⟩

/-- A multi-channel registry holding the single small dataset `d1`. -/
def exMcSt : MSD :=
  ⟨[], [], true, [], [], [], [("d1", exDs)], ["d1"], none, false, emptyMetadata⟩

theorem amRun_zero (f : ℕ → ℚ) (s : ℕ) (acc : ℚ × ℕ) : amRun f s 0 acc = acc := rfl

theorem amRun_succ (f : ℕ → ℚ) (s len : ℕ) (acc : ℚ × ℕ) :
    amRun f s (len + 1) acc = amRun f (s + 1) len (amStep f acc s) := by
  simp [amRun, List.range'_succ]

theorem amStep_fst_le (f : ℕ → ℚ) (acc : ℚ × ℕ) (j : ℕ) : acc.1 ≤ (amStep f acc j).1 := by
  unfold amStep; split
  · exact le_of_lt (by assumption)
  · exact le_refl _

theorem amStep_f_le (f : ℕ → ℚ) (acc : ℚ × ℕ) (j : ℕ) : f j ≤ (amStep f acc j).1 := by
  unfold amStep; split
  · exact le_refl _
  · exact le_of_not_lt (by assumption)

theorem amRun_fst_mono (f : ℕ → ℚ) (s len : ℕ) (acc : ℚ × ℕ) :
    acc.1 ≤ (amRun f s len acc).1 := by
  induction len generalizing s acc with
  | zero => simp [amRun_zero]
  | succ n ih =>
    rw [amRun_succ]
    exact le_trans (amStep_fst_le f acc s) (ih (s + 1) (amStep f acc s))

theorem amRun_le (f : ℕ → ℚ) (s len : ℕ) (acc : ℚ × ℕ) :
    ∀ j ∈ List.range' s len, f j ≤ (amRun f s len acc).1 := by
  induction len generalizing s acc with
  | zero => simp
  | succ n ih =>
    intro j hj
    rw [List.range'_succ] at hj
    rw [amRun_succ]
    rcases List.mem_cons.mp hj with h | h
    · subst h
      exact le_trans (amStep_f_le f acc j) (amRun_fst_mono f (j + 1) n (amStep f acc j))
    · exact ih (s + 1) (amStep f acc s) j h

theorem amRun_cases (f : ℕ → ℚ) (s len : ℕ) (acc : ℚ × ℕ) :
    amRun f s len acc = acc ∨
      (acc.1 < (amRun f s len acc).1 ∧ (amRun f s len acc).2 ∈ List.range' s len ∧
        f (amRun f s len acc).2 = (amRun f s len acc).1) := by
  induction len generalizing s acc with
  | zero => exact Or.inl (amRun_zero f s acc)
  | succ n ih =>
    rw [amRun_succ]
    rcases ih (s + 1) (amStep f acc s) with h | h
    · rw [h]
      by_cases hc : acc.1 < f s
      · right
        have hstep : amStep f acc s = (f s, s) := by simp [amStep, hc]
        rw [hstep]
        exact ⟨hc, by rw [List.range'_succ]; exact List.mem_cons_self _ _, rfl⟩
      · left
        simp [amStep, hc]
    · right
      refine ⟨lt_of_le_of_lt (amStep_fst_le f acc s) h.1, ?_, h.2.2⟩
      rw [List.range'_succ]
      exact List.mem_cons_of_mem _ h.2.1

theorem amRun_first (f : ℕ → ℚ) (s len : ℕ) (acc : ℚ × ℕ) (hs : acc.2 ≤ s) :
    ∀ j ∈ List.range' s len, j < (amRun f s len acc).2 → f j < (amRun f s len acc).1 := by
  induction len generalizing s acc with
  | zero => simp
  | succ n ih =>
    intro j hj hlt
    rw [List.range'_succ] at hj
    rw [amRun_succ] at hlt ⊢
    rcases List.mem_cons.mp hj with h | h
    · subst h
      by_cases hc : acc.1 < f j
      · have hstep : amStep f acc j = (f j, j) := by simp [amStep, hc]
        rw [hstep] at hlt ⊢
        rcases amRun_cases f (j + 1) n (f j, j) with h2 | h2
        · rw [h2] at hlt; simp at hlt
        · simpa using h2.1
      · have hstep : amStep f acc j = acc := by simp [amStep, hc]
        rw [hstep] at hlt ⊢
        rcases amRun_cases f (j + 1) n acc with h2 | h2
        · rw [h2] at hlt; omega
        · exact lt_of_le_of_lt (le_of_not_lt hc) h2.1
    · have hs' : (amStep f acc s).2 ≤ s + 1 := by
        unfold amStep; split
        · exact Nat.le_succ s
        · exact Nat.le_succ_of_le hs
      exact ih (s + 1) (amStep f acc s) hs' j h hlt

/-! ### Properties of the argmax scan -/

theorem argmaxArea_empty (f : ℕ → ℚ) (s e : ℕ) (h : e ≤ s) : argmaxArea f s e = s := by
  unfold argmaxArea
  rw [Nat.sub_eq_zero_of_le h, amRun_zero]

theorem argmaxArea_spec (f : ℕ → ℚ) (s e : ℕ) (hf : ∀ j, 0 ≤ f j) (hse : s < e) :
    (s ≤ argmaxArea f s e ∧ argmaxArea f s e < e) ∧
    (∀ m, s ≤ m → m < e → f m ≤ f (argmaxArea f s e)) ∧
    (∀ m, s ≤ m → m < argmaxArea f s e → f m < f (argmaxArea f s e)) := by
  have hmem : ∀ m, s ≤ m → m < e → m ∈ List.range' s (e - s) := by
    intro m h1 h2
    rw [List.mem_range'_1]
    omega
  rcases amRun_cases f s (e - s) (-1, s) with h | h
  · exfalso
    have hle := amRun_le f s (e - s) (-1, s) s (hmem s le_rfl hse)
    rw [h] at hle
    have hle' : f s ≤ -1 := hle
    have := hf s
    linarith
  · have hr2 : (amRun f s (e - s) (-1, s)).2 ∈ List.range' s (e - s) := h.2.1
    rw [List.mem_range'_1] at hr2
    have heq : f (amRun f s (e - s) (-1, s)).2 = (amRun f s (e - s) (-1, s)).1 := h.2.2
    have hrange : s ≤ argmaxArea f s e ∧ argmaxArea f s e < e := by
      unfold argmaxArea
      omega
    refine ⟨hrange, ?_, ?_⟩
    · intro m h1 h2
      have := amRun_le f s (e - s) (-1, s) m (hmem m h1 h2)
      unfold argmaxArea
      rw [heq]
      exact this
    · intro m h1 h2
      unfold argmaxArea at h2 ⊢
      have := amRun_first f s (e - s) (-1, s) le_rfl m (hmem m h1 (by omega)) h2
      rw [heq]
      exact this

theorem areaAt_nonneg (x y : List ℚ) (a : ℕ) (av : ℚ × ℚ) (j : ℕ) : 0 ≤ areaAt x y a av j := by
  unfold areaAt triArea
  positivity

/-! ### LTTB structural lemmas -/

theorem lttbInterior_length (x y : List ℚ) (n K : ℕ) :
    ∀ fuel i a, (lttbInterior x y n K fuel i a).length = fuel := by
  intro fuel
  induction fuel with
  | zero => intro i a; rfl
  | succ f ih => intro i a; simp [lttbInterior, ih]

theorem bucketSize_pos (n K : ℕ) (hK : 3 ≤ K) (hn : K < n) : 0 < bucketSize n K := by
  unfold bucketSize
  have h1 : (0 : ℚ) < (n : ℚ) - 2 := by
    have : (4 : ℚ) ≤ (n : ℚ) := by exact_mod_cast (by omega : 4 ≤ n)
    linarith
  have h2 : (0 : ℚ) < (K : ℚ) - 2 := by
    have : (3 : ℚ) ≤ (K : ℚ) := by exact_mod_cast hK
    linarith
  positivity

theorem bStart_le (n K i : ℕ) (hK : 3 ≤ K) (hn : K < n) (hi : i + 1 ≤ K - 2) :
    bStart n K i ≤ n - 1 := by
  have hK2 : (0 : ℚ) < (K : ℚ) - 2 := by
    have : (3 : ℚ) ≤ (K : ℚ) := by exact_mod_cast hK
    linarith
  have hcast : ((i : ℚ) + 1) ≤ (K : ℚ) - 2 := by
    have : (i : ℚ) + 3 ≤ (K : ℚ) := by exact_mod_cast (by omega : i + 3 ≤ K)
    linarith
  have hmul : ((i : ℚ) + 1) * bucketSize n K ≤ ((K : ℚ) - 2) * bucketSize n K :=
    mul_le_mul_of_nonneg_right hcast (le_of_lt (bucketSize_pos n K hK hn))
  have hKbs : ((K : ℚ) - 2) * bucketSize n K = (n : ℚ) - 2 := by
    unfold bucketSize
    field_simp
  have hfl : ⌊((i : ℚ) + 1) * bucketSize n K⌋ ≤ (n : ℤ) - 2 := by
    have h1 : ((i : ℚ) + 1) * bucketSize n K ≤ (n : ℚ) - 2 := by
      rw [hKbs] at hmul; exact hmul
    have h2 : ((n : ℚ) - 2) = (((n : ℤ) - 2 : ℤ) : ℚ) := by push_cast; ring
    calc ⌊((i : ℚ) + 1) * bucketSize n K⌋ ≤ ⌊(n : ℚ) - 2⌋ := Int.floor_le_floor h1
      _ = (n : ℤ) - 2 := by rw [h2, Int.floor_intCast]
  have htn : (⌊((i : ℚ) + 1) * bucketSize n K⌋).toNat ≤ ((n : ℤ) - 2).toNat :=
    Int.toNat_le_toNat hfl
  unfold bStart
  omega

theorem lttbStep_le (x y : List ℚ) (n K i a : ℕ) (hK : 3 ≤ K) (hn : K < n)
    (hi : i + 1 ≤ K - 2) : lttbStep x y n K i a ≤ n - 1 := by
  unfold lttbStep
  set f := areaAt x y a (lttbNext x y n K i)
  set s := bStart n K i with hs
  set e := bEnd n K i with he
  have hsle : s ≤ n - 1 := bStart_le n K i hK hn hi
  have hele : e ≤ n - 1 := by rw [he]; unfold bEnd; omega
  by_cases hse : s < e
  · have := (argmaxArea_spec f s e (areaAt_nonneg x y a _) hse).1.2
    omega
  · rw [argmaxArea_empty f s e (by omega)]
    exact hsle

theorem lttbInterior_le (x y : List ℚ) (n K : ℕ) (hK : 3 ≤ K) (hn : K < n) :
    ∀ fuel i a, i + fuel ≤ K - 2 → ∀ j ∈ lttbInterior x y n K fuel i a, j ≤ n - 1 := by
  intro fuel
  induction fuel with
  | zero => intro i a h j hj; simp [lttbInterior] at hj
  | succ f ih =>
    intro i a h j hj
    simp only [lttbInterior, List.mem_cons] at hj
    rcases hj with hj | hj
    · subst hj
      exact lttbStep_le x y n K i a hK hn (by omega)
    · exact ih (i + 1) (lttbStep x y n K i a) (by omega) j hj

theorem lttbIndices_le (x y : List ℚ) (K : ℕ) (hK : 3 ≤ K) (hn : K < x.length) :
    ∀ j ∈ lttbIndices x y K, j ≤ x.length - 1 := by
  intro j hj
  unfold lttbIndices at hj
  rcases List.mem_append.mp hj with hj | hj
  · rcases List.mem_cons.mp hj with hj | hj
    · omega
    · exact lttbInterior_le x y x.length K hK hn (K - 2) 0 0 (by omega) j hj
  · simp at hj
    omega

theorem lttbIndices_length (x y : List ℚ) (K : ℕ) (hK : 3 ≤ K) :
    (lttbIndices x y K).length = K := by
  unfold lttbIndices
  simp [lttbInterior_length]
  omega

theorem getD_concat {α : Type} (l : List α) (a d : α) : (l ++ [a]).getD l.length d = a := by
  induction l with
  | nil => rfl
  | cons b t ih =>
    rw [List.cons_append, List.length_cons, List.getD_cons_succ]
    exact ih

theorem getD_map_getQ (g : ℕ → ℚ) (l : List ℕ) (k : ℕ) (hk : k < l.length) (d : ℚ) :
    (l.map g).getD k d = g (l.getD k 0) := by
  rw [List.getD_eq_getElem _ _ (by simpa using hk), List.getD_eq_getElem _ _ hk]
  simp

theorem getD_mem_of_lt {α : Type} (l : List α) (k : ℕ) (d : α) (hk : k < l.length) :
    l.getD k d ∈ l := by
  rw [List.getD_eq_getElem _ _ hk]
  exact List.getElem_mem hk

theorem lttb_downsample_length (x y : List ℚ) (K : ℕ) (hK : 3 ≤ K) (hn : K < x.length) :
    (lttb_downsample x y K).1.length = K ∧ (lttb_downsample x y K).2.length = K := by
  have hif : ¬ (x.length ≤ K) := by omega
  have hKlen := lttbIndices_length x y K hK
  simp only [lttb_downsample, if_neg hif]
  exact ⟨by simpa using hKlen, by simpa using hKlen⟩

theorem lttb_downsample_head (x y : List ℚ) (K : ℕ) (_hK : 3 ≤ K) (hn : K < x.length) :
    (lttb_downsample x y K).1.getD 0 0 = x.getD 0 0 ∧
    (lttb_downsample x y K).2.getD 0 0 = y.getD 0 0 := by
  have hif : ¬ (x.length ≤ K) := by omega
  simp only [lttb_downsample, if_neg hif]
  constructor <;> simp [lttbIndices, getQ]

theorem lttb_downsample_last (x y : List ℚ) (K : ℕ) (hK : 3 ≤ K) (hn : K < x.length) :
    (lttb_downsample x y K).1.getD (K - 1) 0 = x.getD (x.length - 1) 0 ∧
    (lttb_downsample x y K).2.getD (K - 1) 0 = y.getD (x.length - 1) 0 := by
  have hif : ¬ (x.length ≤ K) := by omega
  simp only [lttb_downsample, if_neg hif]
  have hsplit : lttbIndices x y K =
      (0 :: lttbInterior x y x.length K (K - 2) 0 0) ++ [x.length - 1] := rfl
  have hlen1 : ((0 :: lttbInterior x y x.length K (K - 2) 0 0).map (getQ x)).length
      = K - 1 := by
    simp [lttbInterior_length]
    omega
  have hlen2 : ((0 :: lttbInterior x y x.length K (K - 2) 0 0).map (getQ y)).length
      = K - 1 := by
    simp [lttbInterior_length]
    omega
  constructor
  · rw [hsplit, List.map_append, ← hlen1]
    exact getD_concat (List.map (getQ x) (0 :: lttbInterior x y x.length K (K - 2) 0 0))
      (getQ x (x.length - 1)) 0
  · rw [hsplit, List.map_append, ← hlen2]
    exact getD_concat (List.map (getQ y) (0 :: lttbInterior x y x.length K (K - 2) 0 0))
      (getQ y (x.length - 1)) 0

theorem lttb_downsample_mem (x y : List ℚ) (K : ℕ) (hK : 3 ≤ K) (hn : K < x.length) :
    ∀ k, k < K → ∃ i, i < x.length ∧
      (lttb_downsample x y K).1.getD k 0 = x.getD i 0 ∧
      (lttb_downsample x y K).2.getD k 0 = y.getD i 0 := by
  intro k hk
  have hif : ¬ (x.length ≤ K) := by omega
  have hKlen := lttbIndices_length x y K hK
  simp only [lttb_downsample, if_neg hif]
  have hkL : k < (lttbIndices x y K).length := by omega
  refine ⟨(lttbIndices x y K).getD k 0, ?_, ?_, ?_⟩
  · have hmem := getD_mem_of_lt (lttbIndices x y K) k 0 hkL
    have := lttbIndices_le x y K hK hn _ hmem
    omega
  · rw [getD_map_getQ (getQ x) _ k hkL]
    rfl
  · rw [getD_map_getQ (getQ y) _ k hkL]
    rfl

/-- C1: for `n > K ≥ 3`, `lttb_downsample` returns sequences of length
exactly `K`, whose first and last samples are the input's first and last
samples, and every returned sample is an actual input sample; for
`n ≤ K` the input is returned unchanged. -/
theorem lttb_downsample_C1 (x y : List ℚ) (K : ℕ) :
    (x.length ≤ K → lttb_downsample x y K = (x, y)) ∧
    (3 ≤ K → K < x.length →
      ((lttb_downsample x y K).1.length = K ∧ (lttb_downsample x y K).2.length = K) ∧
      ((lttb_downsample x y K).1.getD 0 0 = x.getD 0 0 ∧
       (lttb_downsample x y K).2.getD 0 0 = y.getD 0 0) ∧
      ((lttb_downsample x y K).1.getD (K - 1) 0 = x.getD (x.length - 1) 0 ∧
       (lttb_downsample x y K).2.getD (K - 1) 0 = y.getD (x.length - 1) 0) ∧
      (∀ k, k < K → ∃ i, i < x.length ∧
        (lttb_downsample x y K).1.getD k 0 = x.getD i 0 ∧
        (lttb_downsample x y K).2.getD k 0 = y.getD i 0)) := by
  constructor
  · intro h
    simp [lttb_downsample, h]
  · intro hK hn
    exact ⟨lttb_downsample_length x y K hK hn, lttb_downsample_head x y K hK hn,
      lttb_downsample_last x y K hK hn, lttb_downsample_mem x y K hK hn⟩

/-- Witness for C1 at a concrete input. -/
theorem lttb_downsample_C1_witness :
    lttb_downsample [1, 2, 3] [4, 5, 6] 5 = ([1, 2, 3], [4, 5, 6]) ∧
    (lttb_downsample [0, 1, 2, 3, 4] [0, 0, 10, 0, 0] 4).1.length = 4 :=
  ⟨(lttb_downsample_C1 [1, 2, 3] [4, 5, 6] 5).1 (by decide),
   (((lttb_downsample_C1 [0, 1, 2, 3, 4] [0, 0, 10, 0, 0] 4).2 (by decide) (by decide)).1).1⟩

theorem lttbInterior_getD (x y : List ℚ) (n K : ℕ) :
    ∀ fuel i0 a0 p, p < fuel →
      (a0 :: lttbInterior x y n K fuel i0 a0).getD (p + 1) 0 =
        lttbStep x y n K (i0 + p) ((a0 :: lttbInterior x y n K fuel i0 a0).getD p 0) := by
  intro fuel
  induction fuel with
  | zero => intro i0 a0 p hp; omega
  | succ f ih =>
    intro i0 a0 p hp
    have key : lttbInterior x y n K (f + 1) i0 a0 =
        lttbStep x y n K i0 a0 ::
          lttbInterior x y n K f (i0 + 1) (lttbStep x y n K i0 a0) := rfl
    cases p with
    | zero =>
      rw [key]
      simp
    | succ q =>
      rw [key]
      rw [List.getD_cons_succ, List.getD_cons_succ, List.getD_cons_succ]
      have harr : i0 + (q + 1) = (i0 + 1) + q := by omega
      rw [harr]
      exact ih (i0 + 1) (lttbStep x y n K i0 a0) q (by omega)

theorem lttbIndices_getD_step (x y : List ℚ) (K : ℕ) (hK : 3 ≤ K) (i : ℕ) (hi : i < K - 2) :
    (lttbIndices x y K).getD (i + 1) 0 =
      lttbStep x y x.length K i ((lttbIndices x y K).getD i 0) := by
  have hlen : (0 :: lttbInterior x y x.length K (K - 2) 0 0).length = K - 1 := by
    simp [lttbInterior_length]
    omega
  have h1 : (lttbIndices x y K).getD (i + 1) 0 =
      (0 :: lttbInterior x y x.length K (K - 2) 0 0).getD (i + 1) 0 := by
    unfold lttbIndices
    exact List.getD_append _ _ _ _ (by omega)
  have h2 : (lttbIndices x y K).getD i 0 =
      (0 :: lttbInterior x y x.length K (K - 2) 0 0).getD i 0 := by
    unfold lttbIndices
    exact List.getD_append _ _ _ _ (by omega)
  rw [h1, h2]
  have := lttbInterior_getD x y x.length K (K - 2) 0 0 i hi
  rw [this, Nat.zero_add]

/-- C2 counterexample: with `x = [0,1,2,3,4]`, `y = [0,0,10,0,0]`, `K = 4`
(so `w = 3/2`), the claim's bucket 0 spans source indices
`[⌊0·w⌋+1, ⌊1·w⌋+1) = {1}`, forcing sample `x[1] = 1` into the output;
the code instead scans `[⌊1·w⌋+1, ⌊2·w⌋+1) = {2,3}` on its first
iteration and outputs `x' = [0, 2, 4, 4]`, which does not contain `1`. -/
theorem lttb_bucket_C2_counterexample :
    lttb_downsample [0, 1, 2, 3, 4] [0, 0, 10, 0, 0] 4 = ([0, 2, 4, 4], [0, 10, 0, 0]) ∧
    ¬ ((1 : ℚ) ∈ (lttb_downsample [0, 1, 2, 3, 4] [0, 0, 10, 0, 0] 4).1) := by
  have h3 : (Int.toNat 3) = 3 := rfl
  have h4 : (Int.toNat 4) = 4 := rfl
  have hnext0 : lttbNext [0, 1, 2, 3, 4] [0, 0, 10, 0, 0] 5 4 0 = (4, 0) := by
    norm_num [lttbNext, bucketSize, sliceMeanQ, pySlice, getQ, h3, h4]
  have hf2 : areaAt [0, 1, 2, 3, 4] [0, 0, 10, 0, 0] 0 (4, 0) 2 = 20 := by
    norm_num [areaAt, triArea, getQ]
  have hf3 : areaAt [0, 1, 2, 3, 4] [0, 0, 10, 0, 0] 0 (4, 0) 3 = 0 := by
    norm_num [areaAt, triArea, getQ]
  have hs0 : bStart 5 4 0 = 2 := by norm_num [bStart, bucketSize]
  have he0 : bEnd 5 4 0 = 4 := by norm_num [bEnd, bucketSize, h3]
  have hs1 : bStart 5 4 1 = 4 := by norm_num [bStart, bucketSize, h3]
  have he1 : bEnd 5 4 1 = 4 := by norm_num [bEnd, bucketSize, h4]
  have hrun2 : ∀ (f : ℕ → ℚ) (s : ℕ) (acc : ℚ × ℕ),
      amRun f s 2 acc = amStep f (amStep f acc s) (s + 1) := by
    intro f s acc
    rw [show (2 : ℕ) = 1 + 1 from rfl, amRun_succ, show (1 : ℕ) = 0 + 1 from rfl, amRun_succ,
      amRun_zero]
  have e1 : lttbStep [0, 1, 2, 3, 4] [0, 0, 10, 0, 0] 5 4 0 0 = 2 := by
    unfold lttbStep
    rw [hnext0, hs0, he0]
    unfold argmaxArea
    rw [show (4 - 2 : ℕ) = 2 from rfl, hrun2]
    norm_num [amStep, hf2, hf3]
  have e2 : lttbStep [0, 1, 2, 3, 4] [0, 0, 10, 0, 0] 5 4 1 2 = 4 := by
    unfold lttbStep
    rw [hs1, he1]
    exact argmaxArea_empty _ 4 4 le_rfl
  have e3 : lttbIndices [0, 1, 2, 3, 4] [0, 0, 10, 0, 0] 4 = [0, 2, 4, 4] := by
    have hu : lttbIndices [0, 1, 2, 3, 4] [0, 0, 10, 0, 0] 4 =
        0 :: lttbStep [0, 1, 2, 3, 4] [0, 0, 10, 0, 0] 5 4 0 0 ::
          lttbStep [0, 1, 2, 3, 4] [0, 0, 10, 0, 0] 5 4 1
            (lttbStep [0, 1, 2, 3, 4] [0, 0, 10, 0, 0] 5 4 0 0) :: [4] := rfl
    rw [hu, e1, e2]
  have hout : lttb_downsample [0, 1, 2, 3, 4] [0, 0, 10, 0, 0] 4
      = ([0, 2, 4, 4], [0, 10, 0, 0]) := by
    norm_num [lttb_downsample, e3, getQ]
  refine ⟨hout, ?_⟩
  rw [hout]
  norm_num

/-- C2 (amended): for `n > K ≥ 3` and loop iteration `i < K-2`, the
interior point the code appends is chosen from the bucket
`[⌊(i+1)·w⌋+1, min(⌊(i+2)·w⌋+1, n-1))` (one bucket later than the claim
states, with only the upper end clipped); when that range is empty the
bucket start index is taken unscanned; otherwise the selected index
maximises the triangle area against the previously selected point and
the mean of the code's following bucket, ties breaking toward the
smaller index. -/
theorem lttb_bucket_selection_C2 (x y : List ℚ) (K i : ℕ) (hK : 3 ≤ K) (hi : i < K - 2) :
    (bEnd x.length K i ≤ bStart x.length K i →
      (lttbIndices x y K).getD (i + 1) 0 = bStart x.length K i) ∧
    (bStart x.length K i < bEnd x.length K i →
      (bStart x.length K i ≤ (lttbIndices x y K).getD (i + 1) 0 ∧
       (lttbIndices x y K).getD (i + 1) 0 < bEnd x.length K i) ∧
      (∀ m, bStart x.length K i ≤ m → m < bEnd x.length K i →
        areaAt x y ((lttbIndices x y K).getD i 0) (lttbNext x y x.length K i) m ≤
          areaAt x y ((lttbIndices x y K).getD i 0) (lttbNext x y x.length K i)
            ((lttbIndices x y K).getD (i + 1) 0)) ∧
      (∀ m, bStart x.length K i ≤ m → m < (lttbIndices x y K).getD (i + 1) 0 →
        areaAt x y ((lttbIndices x y K).getD i 0) (lttbNext x y x.length K i) m <
          areaAt x y ((lttbIndices x y K).getD i 0) (lttbNext x y x.length K i)
            ((lttbIndices x y K).getD (i + 1) 0))) := by
  have hstep := lttbIndices_getD_step x y K hK i hi
  constructor
  · intro h
    rw [hstep]
    exact argmaxArea_empty _ _ _ h
  · intro h
    rw [hstep]
    have hspec := argmaxArea_spec
      (areaAt x y ((lttbIndices x y K).getD i 0) (lttbNext x y x.length K i))
      (bStart x.length K i) (bEnd x.length K i)
      (areaAt_nonneg x y ((lttbIndices x y K).getD i 0) (lttbNext x y x.length K i)) h
    exact ⟨hspec.1, hspec.2.1, hspec.2.2⟩

/-- Witness for the amended C2 at a concrete input. -/
theorem lttb_bucket_selection_C2_witness :
    bStart 5 4 0 ≤ (lttbIndices [0, 1, 2, 3, 4] [0, 0, 10, 0, 0] 4).getD 1 0 ∧
    (lttbIndices [0, 1, 2, 3, 4] [0, 0, 10, 0, 0] 4).getD 1 0 < bEnd 5 4 0 :=
  ((lttb_bucket_selection_C2 [0, 1, 2, 3, 4] [0, 0, 10, 0, 0] 4 0 (by decide)
    (by decide)).2 (by norm_num [bStart, bEnd, bucketSize, show (Int.toNat 3) = 3 from rfl])).1

/-! ### Cross-correlation lemmas -/

theorem zext_out (s : List ℚ) (i : ℤ) (h : ¬ (0 ≤ i ∧ i < (s.length : ℤ))) :
    zext s i = 0 := by
  simp only [zext, if_neg h]

theorem zext_coe (s : List ℚ) (j : ℕ) (h : j < s.length) :
    zext s (j : ℤ) = s.getD j 0 := by
  simp only [zext]
  rw [if_pos]
  · simp
  · constructor
    · exact Int.natCast_nonneg j
    · exact_mod_cast h

theorem sum_getD (s : List ℚ) : s.sum = ∑ j ∈ Finset.range s.length, s.getD j 0 := by
  induction s with
  | nil => simp
  | cons a t ih =>
    rw [List.sum_cons, List.length_cons, Finset.sum_range_succ']
    simp only [List.getD_cons_succ, List.getD_cons_zero]
    rw [← ih]
    ring

theorem meanSub_length (s : List ℚ) : (meanSub s).length = s.length := by
  simp [meanSub]

theorem meanSub_of_sum_zero (s : List ℚ) (h : s.sum = 0) : meanSub s = s := by
  unfold meanSub meanQ
  rw [h]
  simp

theorem getD_map_q (f : ℚ → ℚ) (l : List ℚ) (k : ℕ) (hk : k < l.length) :
    (l.map f).getD k 0 = f (l.getD k 0) := by
  rw [List.getD_eq_getElem _ _ (by simpa using hk), List.getD_eq_getElem _ _ hk]
  simp

theorem acorrZ_zero_eq (s : List ℚ) :
    acorrZ s 0 = ∑ j ∈ Finset.range s.length, zext s (j : ℤ) * zext s (j : ℤ) := by
  unfold acorrZ
  refine Finset.sum_congr rfl fun j _ => ?_
  rw [sub_zero]

theorem acorrZ_zero_pos (s : List ℚ) (h : ∃ i, i < s.length ∧ s.getD i 0 ≠ 0) :
    0 < acorrZ s 0 := by
  obtain ⟨i, hi, hne⟩ := h
  rw [acorrZ_zero_eq]
  refine Finset.sum_pos' (fun j _ => mul_self_nonneg _) ⟨i, Finset.mem_range.mpr hi, ?_⟩
  rw [zext_coe s i hi]
  exact mul_self_pos.mpr hne

theorem sum_sq_shift_le (s : List ℚ) (d : ℤ) :
    ∑ j ∈ Finset.range s.length, zext s ((j : ℤ) - d) * zext s ((j : ℤ) - d) ≤
      ∑ j ∈ Finset.range s.length, zext s (j : ℤ) * zext s (j : ℤ) := by
  have h1 : ∑ j ∈ (Finset.range s.length).filter
        (fun (j : ℕ) => 0 ≤ (j : ℤ) - d ∧ (j : ℤ) - d < (s.length : ℤ)),
        zext s ((j : ℤ) - d) * zext s ((j : ℤ) - d)
      = ∑ j ∈ Finset.range s.length, zext s ((j : ℤ) - d) * zext s ((j : ℤ) - d) := by
    apply Finset.sum_filter_of_ne
    intro j _ hne
    by_contra hp
    rw [zext_out s _ hp] at hne
    exact hne (zero_mul 0)
  have h2 : ∑ j ∈ (Finset.range s.length).filter
        (fun (j : ℕ) => 0 ≤ (j : ℤ) - d ∧ (j : ℤ) - d < (s.length : ℤ)),
        zext s ((j : ℤ) - d) * zext s ((j : ℤ) - d)
      = ∑ m ∈ ((Finset.range s.length).filter
          (fun (j : ℕ) => 0 ≤ (j : ℤ) - d ∧ (j : ℤ) - d < (s.length : ℤ))).image
            (fun (j : ℕ) => ((j : ℤ) - d).toNat),
          zext s (m : ℤ) * zext s (m : ℤ) := by
    rw [Finset.sum_image]
    · refine Finset.sum_congr rfl fun j hj => ?_
      have hj' := (Finset.mem_filter.mp hj).2
      rw [Int.toNat_of_nonneg hj'.1]
    · intro a ha b hb hab
      have ha' := (Finset.mem_filter.mp ha).2
      have hb' := (Finset.mem_filter.mp hb).2
      omega
  have h3 : ((Finset.range s.length).filter
        (fun (j : ℕ) => 0 ≤ (j : ℤ) - d ∧ (j : ℤ) - d < (s.length : ℤ))).image
          (fun (j : ℕ) => ((j : ℤ) - d).toNat) ⊆ Finset.range s.length := by
    intro m hm
    obtain ⟨j, hj, rfl⟩ := Finset.mem_image.mp hm
    have hj' := (Finset.mem_filter.mp hj).2
    rw [Finset.mem_range]
    omega
  rw [← h1, h2]
  exact Finset.sum_le_sum_of_subset_of_nonneg h3 fun m _ _ => mul_self_nonneg _

theorem acorr_expand (s : List ℚ) (d : ℤ) :
    ∑ j ∈ Finset.range s.length,
        (zext s (j : ℤ) - zext s ((j : ℤ) - d)) * (zext s (j : ℤ) - zext s ((j : ℤ) - d))
      = (∑ j ∈ Finset.range s.length, zext s (j : ℤ) * zext s (j : ℤ))
        + (∑ j ∈ Finset.range s.length, zext s ((j : ℤ) - d) * zext s ((j : ℤ) - d))
        - 2 * acorrZ s d := by
  unfold acorrZ
  rw [Finset.mul_sum, ← Finset.sum_add_distrib, ← Finset.sum_sub_distrib]
  refine Finset.sum_congr rfl fun j _ => ?_
  ring

theorem acorr_le (s : List ℚ) (d : ℤ) : acorrZ s d ≤ acorrZ s 0 := by
  have h0 : (0 : ℚ) ≤ ∑ j ∈ Finset.range s.length,
      (zext s (j : ℤ) - zext s ((j : ℤ) - d)) * (zext s (j : ℤ) - zext s ((j : ℤ) - d)) :=
    Finset.sum_nonneg fun j _ => mul_self_nonneg _
  have hexp := acorr_expand s d
  have hb := sum_sq_shift_le s d
  have h00 := acorrZ_zero_eq s
  linarith

theorem acorr_eq_forces (s : List ℚ) (d : ℤ) (h : acorrZ s d = acorrZ s 0) :
    ∀ j ∈ Finset.range s.length, zext s (j : ℤ) = zext s ((j : ℤ) - d) := by
  have hexp := acorr_expand s d
  have hb := sum_sq_shift_le s d
  have h00 := acorrZ_zero_eq s
  have h0 : (0 : ℚ) ≤ ∑ j ∈ Finset.range s.length,
      (zext s (j : ℤ) - zext s ((j : ℤ) - d)) * (zext s (j : ℤ) - zext s ((j : ℤ) - d)) :=
    Finset.sum_nonneg fun j _ => mul_self_nonneg _
  have hS0 : ∑ j ∈ Finset.range s.length,
      (zext s (j : ℤ) - zext s ((j : ℤ) - d)) * (zext s (j : ℤ) - zext s ((j : ℤ) - d)) = 0 := by
    linarith
  have hterm := (Finset.sum_eq_zero_iff_of_nonneg (fun (j : ℕ) (_ : j ∈ Finset.range s.length) =>
    mul_self_nonneg (zext s (j : ℤ) - zext s ((j : ℤ) - d)))).mp hS0
  intro j hj
  have := mul_self_eq_zero.mp (hterm j hj)
  linarith

theorem zext_vanish (s : List ℚ) (d : ℤ) (hd : d ≠ 0)
    (h : ∀ j : ℤ, 0 ≤ j → j < (s.length : ℤ) → zext s j = zext s (j - d)) :
    ∀ m : ℤ, zext s m = 0 := by
  intro m
  by_cases hm : 0 ≤ m ∧ m < (s.length : ℤ)
  swap
  · exact zext_out s m hm
  rcases lt_or_gt_of_ne hd with hneg | hpos
  · have main : ∀ t : ℕ, ∀ j : ℤ, 0 ≤ j → j < (s.length : ℤ) →
        ((s.length : ℤ) - 1 - j).toNat ≤ t → zext s j = 0 := by
      intro t
      induction t with
      | zero =>
        intro j h1 h2 h3
        rw [h j h1 h2]
        exact zext_out s _ (by omega)
      | succ t ih =>
        intro j h1 h2 h3
        rw [h j h1 h2]
        by_cases hjd : j - d < (s.length : ℤ)
        · exact ih (j - d) (by omega) hjd (by omega)
        · exact zext_out s _ (by omega)
    exact main ((s.length : ℤ) - 1 - m).toNat m hm.1 hm.2 le_rfl
  · have main : ∀ t : ℕ, ∀ j : ℤ, 0 ≤ j → j < (s.length : ℤ) →
        j.toNat ≤ t → zext s j = 0 := by
      intro t
      induction t with
      | zero =>
        intro j h1 h2 h3
        rw [h j h1 h2]
        exact zext_out s _ (by omega)
      | succ t ih =>
        intro j h1 h2 h3
        rw [h j h1 h2]
        by_cases hjd : 0 ≤ j - d
        · exact ih (j - d) hjd (by omega) (by omega)
        · exact zext_out s _ (by omega)
    exact main m.toNat m hm.1 hm.2 le_rfl

theorem acorr_lt (s : List ℚ) (d : ℤ) (hd : d ≠ 0) (hpos : 0 < acorrZ s 0) :
    acorrZ s d < acorrZ s 0 := by
  rcases lt_or_eq_of_le (acorr_le s d) with h | h
  · exact h
  · exfalso
    have hall := acorr_eq_forces s d h
    have hall' : ∀ j : ℤ, 0 ≤ j → j < (s.length : ℤ) → zext s j = zext s (j - d) := by
      intro j h1 h2
      have hj : j.toNat < s.length := by omega
      have h4 := hall j.toNat (Finset.mem_range.mpr hj)
      rw [Int.toNat_of_nonneg h1] at h4
      exact h4
    have hvan := zext_vanish s d hd hall'
    have hz : acorrZ s 0 = 0 := by
      rw [acorrZ_zero_eq]
      apply Finset.sum_eq_zero
      intro j _
      rw [hvan (j : ℤ)]
      exact zero_mul 0
    linarith

theorem npArgmax_eq_of_unique (f : ℕ → ℚ) (m k0 : ℕ) (hk : k0 < m)
    (hmax : ∀ k, k < m → k ≠ k0 → f k < f k0) : npArgmax f m = k0 := by
  unfold npArgmax
  rcases amRun_cases f 1 (m - 1) (f 0, 0) with h | h
  · rw [h]
    show 0 = k0
    by_contra hne
    have hmem : k0 ∈ List.range' 1 (m - 1) := by rw [List.mem_range'_1]; omega
    have h1 := amRun_le f 1 (m - 1) (f 0, 0) k0 hmem
    rw [h] at h1
    have h1' : f k0 ≤ f 0 := h1
    have h2 := hmax 0 (by omega) (by omega)
    linarith
  · obtain ⟨hlt, hmem, heq⟩ := h
    rw [List.mem_range'_1] at hmem
    by_contra hne
    have hrlt : (amRun f 1 (m - 1) (f 0, 0)).2 < m := by omega
    have h2 := hmax _ hrlt hne
    by_cases hk0 : k0 = 0
    · subst hk0
      have h1' : f 0 < (amRun f 1 (m - 1) (f 0, 0)).1 := hlt
      rw [← heq] at h1'
      linarith
    · have hmem0 : k0 ∈ List.range' 1 (m - 1) := by rw [List.mem_range'_1]; omega
      have h1 := amRun_le f 1 (m - 1) (f 0, 0) k0 hmem0
      rw [← heq] at h1
      linarith

theorem corrFull_self (u : List ℚ) (k : ℕ) :
    corrFull u u k = acorrZ u ((k : ℤ) - ((u.length : ℤ) - 1)) := rfl

theorem lag_self (s : List ℚ)
    (h : ∃ i j, i < s.length ∧ j < s.length ∧ s.getD i 0 ≠ s.getD j 0) :
    cross_correlate_lag s s = 0 := by
  obtain ⟨i, j, hi, hj, hne⟩ := h
  have hn1 : 1 ≤ s.length := by omega
  have hnz : ∃ i, i < (meanSub s).length ∧ (meanSub s).getD i 0 ≠ 0 := by
    by_cases hzi : (meanSub s).getD i 0 = 0
    · refine ⟨j, by rw [meanSub_length]; exact hj, ?_⟩
      have hmi : (meanSub s).getD i 0 = s.getD i 0 - meanQ s := getD_map_q _ s i hi
      have hmj : (meanSub s).getD j 0 = s.getD j 0 - meanQ s := getD_map_q _ s j hj
      rw [hmj]
      rw [hmi] at hzi
      intro hzj
      exact hne (by linarith)
    · exact ⟨i, by rw [meanSub_length]; exact hi, hzi⟩
  have hpos : 0 < acorrZ (meanSub s) 0 := acorrZ_zero_pos _ hnz
  have hlen : (meanSub s).length = s.length := meanSub_length s
  have hk0 : s.length - 1 < s.length + s.length - 1 := by omega
  have hmax : ∀ k, k < s.length + s.length - 1 → k ≠ s.length - 1 →
      corrFull (meanSub s) (meanSub s) k <
        corrFull (meanSub s) (meanSub s) (s.length - 1) := by
    intro k hkm hkne
    rw [corrFull_self, corrFull_self, hlen]
    have hd0 : ((s.length - 1 : ℕ) : ℤ) - ((s.length : ℤ) - 1) = 0 := by omega
    rw [hd0]
    apply acorr_lt
    · omega
    · exact hpos
  have harg := npArgmax_eq_of_unique (corrFull (meanSub s) (meanSub s))
      (s.length + s.length - 1) (s.length - 1) hk0 hmax
  unfold cross_correlate_lag
  rw [harg]
  omega

theorem shiftSig_length (s : List ℚ) (k : ℤ) : (shiftSig s k).length = s.length := by
  simp [shiftSig]

theorem getD_map_range (f : ℕ → ℚ) (n j : ℕ) (hj : j < n) :
    ((List.range n).map f).getD j 0 = f j := by
  rw [List.getD_eq_getElem _ _ (by simpa using hj)]
  simp

theorem sum_zext (s : List ℚ) : ∑ j ∈ Finset.range s.length, zext s (j : ℤ) = s.sum := by
  rw [sum_getD s]
  exact Finset.sum_congr rfl fun j hj => zext_coe s j (Finset.mem_range.mp hj)

theorem zext_shiftSig (s : List ℚ) (k : ℤ)
    (hsupp : ∀ m : ℤ, 0 ≤ m → m < (s.length : ℤ) →
      ¬ (0 ≤ m - k ∧ m - k < (s.length : ℤ)) → zext s m = 0) :
    ∀ i : ℤ, zext (shiftSig s k) i = zext s (i + k) := by
  intro i
  by_cases hi : 0 ≤ i ∧ i < (s.length : ℤ)
  · have hti : i.toNat < s.length := by omega
    have hcond : 0 ≤ i ∧ i < ((shiftSig s k).length : ℤ) := by
      rw [shiftSig_length]; exact hi
    rw [zext, if_pos hcond]
    unfold shiftSig
    rw [getD_map_range _ _ _ hti]
    rw [Int.toNat_of_nonneg hi.1]
  · have hcond : ¬ (0 ≤ i ∧ i < ((shiftSig s k).length : ℤ)) := by
      rw [shiftSig_length]; exact hi
    rw [zext_out _ _ hcond]
    by_cases hik : 0 ≤ i + k ∧ i + k < (s.length : ℤ)
    · symm
      apply hsupp (i + k) hik.1 hik.2
      intro hcontra
      apply hi
      omega
    · symm
      exact zext_out s _ hik

theorem sum_zext_shift (s : List ℚ) (k : ℤ)
    (hsupp : ∀ m : ℤ, 0 ≤ m → m < (s.length : ℤ) →
      ¬ (0 ≤ m - k ∧ m - k < (s.length : ℤ)) → zext s m = 0) :
    ∑ j ∈ Finset.range s.length, zext s ((j : ℤ) + k)
      = ∑ j ∈ Finset.range s.length, zext s (j : ℤ) := by
  have h1 : ∑ j ∈ (Finset.range s.length).filter
        (fun (j : ℕ) => 0 ≤ (j : ℤ) + k ∧ (j : ℤ) + k < (s.length : ℤ)),
        zext s ((j : ℤ) + k)
      = ∑ j ∈ Finset.range s.length, zext s ((j : ℤ) + k) := by
    apply Finset.sum_filter_of_ne
    intro j _ hne
    by_contra hp
    exact hne (zext_out s _ hp)
  have h2 : ∑ j ∈ (Finset.range s.length).filter
        (fun (j : ℕ) => 0 ≤ (j : ℤ) + k ∧ (j : ℤ) + k < (s.length : ℤ)),
        zext s ((j : ℤ) + k)
      = ∑ m ∈ ((Finset.range s.length).filter
          (fun (j : ℕ) => 0 ≤ (j : ℤ) + k ∧ (j : ℤ) + k < (s.length : ℤ))).image
            (fun (j : ℕ) => ((j : ℤ) + k).toNat),
          zext s (m : ℤ) := by
    rw [Finset.sum_image]
    · refine Finset.sum_congr rfl fun j hj => ?_
      have hj' := (Finset.mem_filter.mp hj).2
      rw [Int.toNat_of_nonneg hj'.1]
    · intro a ha b hb hab
      have ha' := (Finset.mem_filter.mp ha).2
      have hb' := (Finset.mem_filter.mp hb).2
      omega
  have h3 : ((Finset.range s.length).filter
        (fun (j : ℕ) => 0 ≤ (j : ℤ) + k ∧ (j : ℤ) + k < (s.length : ℤ))).image
          (fun (j : ℕ) => ((j : ℤ) + k).toNat) ⊆ Finset.range s.length := by
    intro m hm
    obtain ⟨j, hj, rfl⟩ := Finset.mem_image.mp hm
    have hj' := (Finset.mem_filter.mp hj).2
    rw [Finset.mem_range]
    omega
  have h4 : ∑ m ∈ ((Finset.range s.length).filter
        (fun (j : ℕ) => 0 ≤ (j : ℤ) + k ∧ (j : ℤ) + k < (s.length : ℤ))).image
          (fun (j : ℕ) => ((j : ℤ) + k).toNat),
        zext s (m : ℤ)
      = ∑ m ∈ Finset.range s.length, zext s (m : ℤ) := by
    apply Finset.sum_subset h3
    intro m hm hnotin
    have hmr := Finset.mem_range.mp hm
    apply hsupp (m : ℤ) (by omega) (by omega)
    intro hcontra
    apply hnotin
    rw [Finset.mem_image]
    refine ⟨((m : ℤ) - k).toNat, ?_, by omega⟩
    rw [Finset.mem_filter]
    refine ⟨Finset.mem_range.mpr (by omega), by omega, by omega⟩
  rw [← h1, h2, h4]

theorem corrFull_shift (s : List ℚ) (k : ℤ)
    (hsupp : ∀ m : ℤ, 0 ≤ m → m < (s.length : ℤ) →
      ¬ (0 ≤ m - k ∧ m - k < (s.length : ℤ)) → zext s m = 0) (k' : ℕ) :
    corrFull s (shiftSig s k) k' =
      acorrZ s (((k' : ℤ) - (((shiftSig s k).length : ℤ) - 1)) - k) := by
  unfold corrFull acorrZ
  refine Finset.sum_congr rfl fun j _ => ?_
  rw [zext_shiftSig s k hsupp]
  congr 1
  ring_nf

theorem lag_shift (s : List ℚ) (k : ℤ)
    (hnz : ∃ i, i < s.length ∧ s.getD i 0 ≠ 0)
    (hsum : s.sum = 0)
    (hsupp : ∀ m : ℤ, 0 ≤ m → m < (s.length : ℤ) →
      ¬ (0 ≤ m - k ∧ m - k < (s.length : ℤ)) → zext s m = 0) :
    cross_correlate_lag s (shiftSig s k) = k := by
  obtain ⟨i0, hi0, hi0ne⟩ := hnz
  have hn1 : 1 ≤ s.length := by omega
  have hz0 : zext s (i0 : ℤ) ≠ 0 := by rw [zext_coe s i0 hi0]; exact hi0ne
  have hkb : 0 ≤ (i0 : ℤ) - k ∧ (i0 : ℤ) - k < (s.length : ℤ) := by
    by_contra hcon
    exact hz0 (hsupp (i0 : ℤ) (by omega) (by omega) hcon)
  have hms : meanSub s = s := meanSub_of_sum_zero s hsum
  have hsum_t : (shiftSig s k).sum = 0 := by
    rw [sum_getD, shiftSig_length]
    have hcong : ∀ j ∈ Finset.range s.length,
        (shiftSig s k).getD j 0 = zext s ((j : ℤ) + k) := by
      intro j hj
      rw [Finset.mem_range] at hj
      unfold shiftSig
      exact getD_map_range _ _ _ hj
    rw [Finset.sum_congr rfl hcong, sum_zext_shift s k hsupp, sum_zext]
    exact hsum
  have hmst : meanSub (shiftSig s k) = shiftSig s k := meanSub_of_sum_zero _ hsum_t
  have hpos : 0 < acorrZ s 0 := acorrZ_zero_pos s ⟨i0, hi0, hi0ne⟩
  have hlen_t : (shiftSig s k).length = s.length := shiftSig_length s k
  have hk1' : (((k + (s.length : ℤ) - 1).toNat : ℤ)) = k + (s.length : ℤ) - 1 := by omega
  have hk1m : (k + (s.length : ℤ) - 1).toNat < s.length + (shiftSig s k).length - 1 := by
    rw [hlen_t]
    omega
  have hmax : ∀ k', k' < s.length + (shiftSig s k).length - 1 →
      k' ≠ (k + (s.length : ℤ) - 1).toNat →
      corrFull (meanSub s) (meanSub (shiftSig s k)) k' <
        corrFull (meanSub s) (meanSub (shiftSig s k)) ((k + (s.length : ℤ) - 1).toNat) := by
    intro k' hkm hkne
    rw [hms, hmst, corrFull_shift s k hsupp, corrFull_shift s k hsupp, hlen_t]
    have hd1 : ((((k + (s.length : ℤ) - 1).toNat : ℤ)) - ((s.length : ℤ) - 1)) - k = 0 := by
      omega
    rw [hd1]
    apply acorr_lt
    · rw [hlen_t] at hkm
      omega
    · exact hpos
  have harg := npArgmax_eq_of_unique (corrFull (meanSub s) (meanSub (shiftSig s k)))
      (s.length + (shiftSig s k).length - 1) ((k + (s.length : ℤ) - 1).toNat) hk1m hmax
  unfold cross_correlate_lag
  rw [harg, hlen_t]
  omega

/-- C3: `lag(s, s) = 0` for every non-constant signal, and
`lag(s, shift(s, k)) = k` with the claim's sign convention (positive lag
means the target must shift right to match the template), where
`shift(s,k)[i] = s[i+k]`; the informal "`|k|` well below the signal
length" is made precise as: the signal is mean-free and vanishes on the
boundary region that the shift moves out of range (the values the claim
calls "after mean-subtraction"). -/
theorem cross_correlate_lag_C3 (s : List ℚ) :
    ((∃ i j, i < s.length ∧ j < s.length ∧ s.getD i 0 ≠ s.getD j 0) →
      cross_correlate_lag s s = 0) ∧
    (∀ k : ℤ, (∃ i, i < s.length ∧ s.getD i 0 ≠ 0) → s.sum = 0 →
      (∀ m : ℤ, 0 ≤ m → m < (s.length : ℤ) →
        ¬ (0 ≤ m - k ∧ m - k < (s.length : ℤ)) → zext s m = 0) →
      cross_correlate_lag s (shiftSig s k) = k) :=
  ⟨lag_self s, fun k => lag_shift s k⟩

/-- Witness for C3 at a concrete signal and shift. -/
theorem cross_correlate_lag_C3_witness :
    cross_correlate_lag [0, 0, 1, -1, 0, 0] [0, 0, 1, -1, 0, 0] = 0 ∧
    cross_correlate_lag [0, 0, 1, -1, 0, 0] (shiftSig [0, 0, 1, -1, 0, 0] 2) = 2 :=
  ⟨(cross_correlate_lag_C3 [0, 0, 1, -1, 0, 0]).1
      ⟨2, 0, by norm_num, by norm_num, by norm_num⟩,
   (cross_correlate_lag_C3 [0, 0, 1, -1, 0, 0]).2 2 ⟨2, by norm_num, by norm_num⟩
     (by norm_num)
     (by
       intro m h1 h2 h3
       norm_num at h2 h3
       interval_cases m
       · norm_num [zext]
       · norm_num [zext]
       · exfalso; omega
       · exfalso; omega
       · exfalso; omega
       · exfalso; omega)⟩

/-! ### Clear (C4) -/

/-- C4 counterexample: `clear` deletes no cache files — a state holding a
cache file still holds it after `/clear` (the code's `clear_data` resets
only in-memory state, and `clear_all_data` deletes only uploaded CSVs). -/
theorem clear_C4_counterexample :
    (clear_all_data
      ⟨⟨[], [], true, [], [], [], [], [], none, false, emptyMetadata⟩,
       ["a.csv"], ["rec_time_12345678.npy"]⟩).1.cache_files ≠ [] := by
  decide

/-- C4 (amended): after `/clear`, both registries (the legacy flat map
and the multi-channel dataset map with its order list) are empty, all
three UI side-tables are reset, the uploaded `*.csv` files are deleted
(and returned), but the cache directory is left untouched. -/
theorem clear_C4_amended (s : ServerState) :
    (clear_all_data s).1.msd.data = [] ∧
    (clear_all_data s).1.msd.multi_channel_datasets = [] ∧
    (clear_all_data s).1.msd.multi_channel_order = [] ∧
    (clear_all_data s).1.msd.channel_names = [] ∧
    (clear_all_data s).1.msd.channel_offsets = [] ∧
    (clear_all_data s).1.msd.channel_cut_ranges = [] ∧
    (clear_all_data s).1.msd.file_list = [] ∧
    (clear_all_data s).1.msd.large_file_handler = none ∧
    (clear_all_data s).1.msd.is_large_file = false ∧
    (clear_all_data s).1.msd.multi_channel_mode = s.msd.multi_channel_mode ∧
    (clear_all_data s).1.upload_files
      = s.upload_files.filter (fun f => !(f.endsWith ".csv")) ∧
    (clear_all_data s).2 = s.upload_files.filter (fun f => f.endsWith ".csv") ∧
    (clear_all_data s).1.cache_files = s.cache_files :=
  ⟨rfl, rfl, rfl, rfl, rfl, rfl, rfl, rfl, rfl, rfl, rfl, rfl, rfl⟩

/-! ### Rename (C10) -/

theorem alookup_rename (l : List (String × Dataset)) (id nm k : String) :
    alookup (l.map (fun p => if p.1 = id then (p.1, { p.2 with name := nm }) else p)) k
      = if k = id then (alookup l k).map (fun d => { d with name := nm })
        else alookup l k := by
  induction l with
  | nil => by_cases h : k = id <;> simp [alookup, h]
  | cons hd t ih =>
    obtain ⟨a, v⟩ := hd
    simp only [List.map_cons]
    by_cases h1 : a = id
    · subst h1
      rw [if_pos rfl]
      by_cases h2 : k = a
      · subst h2
        simp [alookup]
      · have h2' : ¬ (a = k) := fun h => h2 h.symm
        simp only [alookup, if_neg h2']
        rw [ih]
    · rw [if_neg (by simpa using h1)]
      by_cases h2 : a = k
      · subst h2
        have hk : ¬ (a = id) := h1
        simp [alookup, hk]
      · simp only [alookup, if_neg h2]
        exact ih

/-- C10: renaming an existing dataset returns `True` and changes only
that dataset's `name` field: all other fields of the record, every other
dataset, the insertion-order list and the UI side-tables are unchanged;
renaming an absent id returns `False` and leaves the state unchanged. -/
theorem update_dataset_name_C10 (st : MSD) (dataset_id nm : String) :
    (∀ d, alookup st.multi_channel_datasets dataset_id = some d →
      (update_dataset_name st dataset_id nm).1 = true ∧
      alookup (update_dataset_name st dataset_id nm).2.multi_channel_datasets dataset_id
        = some { d with name := nm } ∧
      (∀ id', id' ≠ dataset_id →
        alookup (update_dataset_name st dataset_id nm).2.multi_channel_datasets id'
          = alookup st.multi_channel_datasets id') ∧
      (update_dataset_name st dataset_id nm).2.multi_channel_order
        = st.multi_channel_order ∧
      (update_dataset_name st dataset_id nm).2.data = st.data ∧
      (update_dataset_name st dataset_id nm).2.channel_names = st.channel_names ∧
      (update_dataset_name st dataset_id nm).2.channel_offsets = st.channel_offsets ∧
      (update_dataset_name st dataset_id nm).2.channel_cut_ranges
        = st.channel_cut_ranges ∧
      (update_dataset_name st dataset_id nm).2.file_list = st.file_list ∧
      (update_dataset_name st dataset_id nm).2.multi_channel_mode
        = st.multi_channel_mode) ∧
    (alookup st.multi_channel_datasets dataset_id = none →
      update_dataset_name st dataset_id nm = (false, st)) := by
  constructor
  · intro d hd
    have hupd : update_dataset_name st dataset_id nm =
        (true, { st with multi_channel_datasets :=
          (st.multi_channel_datasets.map (fun p =>
            if p.1 = dataset_id then (p.1, { p.2 with name := nm }) else p)) }) := by
      simp [update_dataset_name, hd]
    rw [hupd]
    refine ⟨rfl, ?_, ?_, rfl, rfl, rfl, rfl, rfl, rfl, rfl⟩
    · show alookup (st.multi_channel_datasets.map (fun p =>
        if p.1 = dataset_id then (p.1, { p.2 with name := nm }) else p)) dataset_id
        = some { d with name := nm }
      rw [alookup_rename]
      simp [hd]
    · intro id' hne
      show alookup (st.multi_channel_datasets.map (fun p =>
        if p.1 = dataset_id then (p.1, { p.2 with name := nm }) else p)) id'
        = alookup st.multi_channel_datasets id'
      rw [alookup_rename]
      simp [hne]
  · intro hd
    simp [update_dataset_name, hd]

/-- Witness for C10 at a concrete registry. -/
theorem update_dataset_name_C10_witness :
    (update_dataset_name
      ⟨[], [], true, [], [], [],
       [("d1", ⟨"old", "f.csv", "/tmp/f.csv", 1, false, emptyMetadata, [], [], none⟩)],
       ["d1"], none, false, emptyMetadata⟩ "d1" "fresh").1 = true :=
  ((update_dataset_name_C10
    ⟨[], [], true, [], [], [],
     [("d1", ⟨"old", "f.csv", "/tmp/f.csv", 1, false, emptyMetadata, [], [], none⟩)],
     ["d1"], none, false, emptyMetadata⟩ "d1" "fresh").1
    ⟨"old", "f.csv", "/tmp/f.csv", 1, false, emptyMetadata, [], [], none⟩ (by decide)).1

/-! ### Cache completeness (C5) -/

/-- C5 counterexample: an entry with the time file and a single channel
file (15 of the 16 declared channel files missing) IS treated as cached,
so ingest reuses it — the claim's "cache-complete" condition is not what
the code checks. -/
theorem is_cached_C5_counterexample :
    is_cached exCacheFS "rec" "k1" = true ∧
    exCacheFS (get_cache_path "rec" "k1" (chanName 2)) = false := by
  decide

/-- C5 (amended): ingest reuses the cache iff the file is above the 50 MB
threshold and the time cache plus AT LEAST ONE of the sixteen declared
channel caches exist — not all sixteen as the claim states. -/
theorem is_cached_C5_amended (fs_exists : String → Bool) (stem key : String)
    (file_size : ℕ) :
    (is_cached fs_exists stem key = true ↔
      (fs_exists (get_time_cache_path stem key) = true ∧
       ∃ i, 1 ≤ i ∧ i ≤ 16 ∧ fs_exists (get_cache_path stem key (chanName i)) = true)) ∧
    (ingest_reuses_cache fs_exists stem key file_size = true ↔
      (50 * 1024 * 1024 < file_size ∧ is_cached fs_exists stem key = true)) := by
  constructor
  · unfold is_cached
    rw [Bool.and_eq_true, List.any_eq_true]
    constructor
    · rintro ⟨h1, i, hi, h2⟩
      rw [List.mem_range'_1] at hi
      exact ⟨h1, i, by omega, by omega, h2⟩
    · rintro ⟨h1, i, hi1, hi2, h2⟩
      exact ⟨h1, i, by rw [List.mem_range'_1]; omega, h2⟩
  · unfold ingest_reuses_cache
    rw [Bool.and_eq_true, decide_eq_true_eq]

/-! ### Ingest length invariants (C6) -/

/-- C6 counterexample: a 3-column CSV with time column 0 where the second
data row has an empty cell in column 1.  Column 2 collects 2 points while
`total_rows` (taken from the first channel, column 1, which skipped the
row) is 1. -/
theorem load_C6_counterexample :
    (colSeries 0 2 [[some 0, some 1, some 2], [some 1, none, some 3]]).y.length = 2 ∧
    (build_small_dataset_metadata
      (load_data_multi ["time", "a", "b"] 0
        [[some 0, some 1, some 2], [some 1, none, some 3]])).total_rows = 1 ∧
    ¬ ((colSeries 0 2 [[some 0, some 1, some 2], [some 1, none, some 3]]).y.length
        = (build_small_dataset_metadata
            (load_data_multi ["time", "a", "b"] 0
              [[some 0, some 1, some 2], [some 1, none, some 3]])).total_rows) := by
  decide

theorem length_filterMap_of_forall_some {α β : Type} (f : α → Option β) (l : List α)
    (h : ∀ a ∈ l, (f a).isSome) : (l.filterMap f).length = l.length := by
  induction l with
  | nil => rfl
  | cons a t ih =>
    rw [List.filterMap_cons]
    cases hfa : f a with
    | none =>
      exfalso
      have := h a (List.mem_cons_self a t)
      rw [hfa] at this
      exact absurd this (by simp)
    | some b =>
      rw [List.length_cons, ih (fun x hx => h x (List.mem_cons_of_mem _ hx))]
      simp

/-- C6 (amended): per channel `len(x) = len(y)` always holds;
`total_rows` and `time_range` are derived from the FIRST channel's
x-array only; and when every cell of every row is present (no empty
cells, rows at least as wide as the header) every channel — in
particular the first, hence `total_rows` — has exactly `rows.length`
points, so all channels agree with `total_rows`. -/
theorem load_C6_amended (colNames : List String) (timeIdx : ℕ)
    (rows : List (List (Option ℚ))) :
    (∀ c, (colSeries timeIdx c rows).x.length = (colSeries timeIdx c rows).y.length) ∧
    (∀ nm0 s0 rest, load_data_multi colNames timeIdx rows = (nm0, s0) :: rest →
      s0.x ≠ [] →
      (build_small_dataset_metadata (load_data_multi colNames timeIdx rows)).total_rows
        = s0.x.length ∧
      (build_small_dataset_metadata (load_data_multi colNames timeIdx rows)).time_range
        = (s0.x.getD 0 0, s0.x.getD (s0.x.length - 1) 0)) ∧
    (timeIdx < colNames.length →
      (∀ row ∈ rows, ∀ c, c < colNames.length → row.getD c none ≠ none) →
      ∀ c, c < colNames.length → (colSeries timeIdx c rows).x.length = rows.length) := by
  refine ⟨?_, ?_, ?_⟩
  · intro c
    simp [colSeries]
  · intro nm0 s0 rest heq hne
    rw [heq]
    have hb : build_small_dataset_metadata ((nm0, s0) :: rest)
        = if s0.x.length ≠ 0 then
            ⟨s0.x.length, ((nm0, s0) :: rest).map Prod.fst,
             (s0.x.getD 0 0, s0.x.getD (s0.x.length - 1) 0)⟩
          else ⟨0, ((nm0, s0) :: rest).map Prod.fst, (0, 0)⟩ := rfl
    rw [hb, if_pos (by simpa using hne)]
    exact ⟨rfl, rfl⟩
  · intro htime hfull c hc
    unfold colSeries
    rw [List.length_map]
    apply length_filterMap_of_forall_some
    intro row hrow
    have ht := hfull row hrow timeIdx htime
    have hcv := hfull row hrow c hc
    cases hrowt : row.getD timeIdx none with
    | none => exact absurd hrowt ht
    | some t =>
      cases hrowc : row.getD c none with
      | none => exact absurd hrowc hcv
      | some v => simp [hrowt, hrowc]

/-- Witness for the amended C6 at a concrete complete CSV. -/
theorem load_C6_amended_witness :
    (colSeries 0 2 [[some 0, some 1, some 2], [some 1, some 5, some 3]]).x.length
      = 2 :=
  (load_C6_amended ["time", "a", "b"] 0
    [[some 0, some 1, some 2], [some 1, some 5, some 3]]).2.2
    (by decide) (by decide) 2 (by decide)

/-! ### Slice semantics (C7) -/

theorem small_channel_slice_eq (ds : Dataset) (channel_id : String) (ser : Series)
    (hch : alookup ds.data channel_id = some ser) (start_idx e0 K : ℕ)
    (he : e0 ≤ ser.x.length) :
    small_channel_slice ds channel_id start_idx (some e0) K
      = if K < (pySlice ser.x start_idx e0).length then
          ⟨(lttb_downsample (pySlice ser.x start_idx e0) (pySlice ser.y start_idx e0) K).1,
           (lttb_downsample (pySlice ser.x start_idx e0) (pySlice ser.y start_idx e0) K).2⟩
        else ⟨pySlice ser.x start_idx e0, pySlice ser.y start_idx e0⟩ := by
  simp only [small_channel_slice, hch]
  rw [if_neg (by omega : ¬ (e0 > ser.x.length))]

/-- C7 counterexample: the legacy by-index path
(`get_channel_data_downsampled`, non-large branch) ignores
`start_idx`/`end_idx`/`target_points` entirely and returns the full
stored series, while the claim requires the slice `[1:5]` downsampled to
3 points. -/
theorem slice_C7_counterexample :
    get_channel_data_downsampled exLegacySt "c" 1 none 3
      = .ok ⟨[0, 1, 2, 3, 4], [5, 6, 7, 8, 9]⟩ ∧
    (lttb_downsample (pySlice [0, 1, 2, 3, 4] 1 5) (pySlice [5, 6, 7, 8, 9] 1 5) 3).1.length
      = 3 ∧
    ¬ (get_channel_data_downsampled exLegacySt "c" 1 none 3
        = .ok ⟨(lttb_downsample (pySlice [0, 1, 2, 3, 4] 1 5)
                  (pySlice [5, 6, 7, 8, 9] 1 5) 3).1,
               (lttb_downsample (pySlice [0, 1, 2, 3, 4] 1 5)
                  (pySlice [5, 6, 7, 8, 9] 1 5) 3).2⟩) := by
  have hfull : get_channel_data_downsampled exLegacySt "c" 1 none 3
      = .ok ⟨[0, 1, 2, 3, 4], [5, 6, 7, 8, 9]⟩ := rfl
  have hlen : (lttb_downsample (pySlice [0, 1, 2, 3, 4] 1 5)
      (pySlice [5, 6, 7, 8, 9] 1 5) 3).1.length = 3 := by
    exact (lttb_downsample_length _ _ 3 (by norm_num) (by decide)).1
  refine ⟨hfull, hlen, ?_⟩
  intro h
  rw [hfull] at h
  simp only [Except.ok.injEq, Series.mk.injEq] at h
  have hx := congrArg List.length h.1
  rw [hlen] at hx
  simp at hx

/-- C7 (amended): the multi-channel small-dataset path does satisfy the
claimed slice semantics — `end` defaults to the row count, an
out-of-range `end` is clipped, `start ≥ end` yields an empty series, a
slice of at most `K` points is returned unchanged, and a longer slice is
LTTB-downsampled to exactly `K` points preserving the slice's first and
last samples; the legacy (non-multi-channel) by-index path, by contrast,
ignores the slice parameters altogether (see the counterexample). -/
theorem slice_C7_amended (st : MSD) (ds : Dataset) (channel_id : String) (ser : Series)
    (K : ℕ) (hch : alookup ds.data channel_id = some ser) :
    (∀ dsId start_idx end_idx, resolveDataset st dsId = some ds →
      ds.is_large_file = false →
      get_multi_channel_channel_data st dsId channel_id start_idx end_idx K
        = .ok (small_channel_slice ds channel_id start_idx end_idx K)) ∧
    (∀ start_idx,
      small_channel_slice ds channel_id start_idx none K
        = small_channel_slice ds channel_id start_idx (some ser.x.length) K) ∧
    (∀ start_idx e0, ser.x.length < e0 →
      small_channel_slice ds channel_id start_idx (some e0) K
        = small_channel_slice ds channel_id start_idx (some ser.x.length) K) ∧
    (∀ start_idx e0, e0 ≤ ser.x.length → e0 ≤ start_idx →
      small_channel_slice ds channel_id start_idx (some e0) K = ⟨[], []⟩) ∧
    (∀ start_idx e0, e0 ≤ ser.x.length →
      (pySlice ser.x start_idx e0).length ≤ K →
      small_channel_slice ds channel_id start_idx (some e0) K
        = ⟨pySlice ser.x start_idx e0, pySlice ser.y start_idx e0⟩) ∧
    (∀ start_idx e0, e0 ≤ ser.x.length → 3 ≤ K →
      K < (pySlice ser.x start_idx e0).length →
      (small_channel_slice ds channel_id start_idx (some e0) K).x.length = K ∧
      (small_channel_slice ds channel_id start_idx (some e0) K).x.getD 0 0
        = (pySlice ser.x start_idx e0).getD 0 0 ∧
      (small_channel_slice ds channel_id start_idx (some e0) K).x.getD (K - 1) 0
        = (pySlice ser.x start_idx e0).getD
            ((pySlice ser.x start_idx e0).length - 1) 0) := by
  refine ⟨?_, ?_, ?_, ?_, ?_, ?_⟩
  · intro dsId start_idx end_idx hres hlarge
    simp only [get_multi_channel_channel_data, hres]
    rw [if_neg]
    simp [hlarge]
  · intro start_idx
    simp only [small_channel_slice, hch]
    rw [if_neg (by omega : ¬ (ser.x.length > ser.x.length))]
  · intro start_idx e0 hgt
    simp only [small_channel_slice, hch]
    rw [if_pos (by omega : e0 > ser.x.length),
      if_neg (by omega : ¬ (ser.x.length > ser.x.length))]
  · intro start_idx e0 he hse
    rw [small_channel_slice_eq ds channel_id ser hch start_idx e0 K he]
    have hxnil : pySlice ser.x start_idx e0 = [] := by
      apply List.drop_eq_nil_of_le
      rw [List.length_take]
      omega
    have hynil : pySlice ser.y start_idx e0 = [] := by
      apply List.drop_eq_nil_of_le
      rw [List.length_take]
      omega
    rw [if_neg (by rw [hxnil]; simp), hxnil, hynil]
  · intro start_idx e0 he hle
    rw [small_channel_slice_eq ds channel_id ser hch start_idx e0 K he,
      if_neg (by omega)]
  · intro start_idx e0 he hK hgt
    rw [small_channel_slice_eq ds channel_id ser hch start_idx e0 K he, if_pos hgt]
    exact ⟨(lttb_downsample_length _ _ K hK hgt).1,
      (lttb_downsample_head _ _ K hK hgt).1,
      (lttb_downsample_last _ _ K hK hgt).1⟩

/-- Witness for the amended C7 at a concrete slice query. -/
theorem slice_C7_amended_witness :
    small_channel_slice exDs "c" 1 (some 3) 5
      = ⟨pySlice [0, 1, 2] 1 3, pySlice [3, 4, 5] 1 3⟩ :=
  (slice_C7_amended exLegacySt exDs "c" ⟨[0, 1, 2], [3, 4, 5]⟩ 5
    (by decide)).2.2.2.2.1 1 3 (by decide) (by decide)

/-! ### NotFound semantics (C9) -/

/-- C9 counterexample: a slice query naming an UNKNOWN dataset id does
not return the empty series — `_resolve_dataset` silently falls back to
the most recently added dataset and the query returns its data. -/
theorem notfound_C9_counterexample :
    ep_get_channel_data exMcSt "c" (some "zz") 0 none 10
      = ⟨none, ⟨[0, 1, 2], [3, 4, 5]⟩⟩ ∧
    ¬ ((ep_get_channel_data exMcSt "c" (some "zz") 0 none 10).data
        = (⟨[], []⟩ : Series)) := by
  have h : ep_get_channel_data exMcSt "c" (some "zz") 0 none 10
      = ⟨none, ⟨[0, 1, 2], [3, 4, 5]⟩⟩ := rfl
  refine ⟨h, ?_⟩
  rw [h]
  decide

/-- C9 (amended): (i) with an empty registry the multi-channel slice
query returns the empty series with no error envelope; (ii) an unknown
(or empty) dataset id FALLS BACK to the most recently added dataset
rather than returning empty; (iii) an unknown channel on a resolved
small dataset yields the empty series with no error envelope; (iv) an
unknown channel on a resolved large dataset surfaces the missing cache
file as an error envelope with empty data. -/
theorem notfound_C9_amended (st : MSD) (channel_id : String)
    (start_idx : ℕ) (end_idx : Option ℕ) (K : ℕ)
    (hmode : st.multi_channel_mode = true) :
    (st.multi_channel_datasets = [] → st.multi_channel_order = [] →
      ∀ dsId, ep_get_channel_data st channel_id dsId start_idx end_idx K
        = ⟨none, ⟨[], []⟩⟩) ∧
    (∀ i, (i = "" ∨ alookup st.multi_channel_datasets i = none) →
      ep_get_channel_data st channel_id (some i) start_idx end_idx K
        = ep_get_channel_data st channel_id none start_idx end_idx K) ∧
    (∀ ds dsId, resolveDataset st dsId = some ds → ds.is_large_file = false →
      alookup ds.data channel_id = none →
      ep_get_channel_data st channel_id dsId start_idx end_idx K = ⟨none, ⟨[], []⟩⟩) ∧
    (∀ ds dsId h, resolveDataset st dsId = some ds → ds.is_large_file = true →
      ds.large_file_handler = some h → alookup h.chans channel_id = none →
      (ep_get_channel_data st channel_id dsId start_idx end_idx K).err.isSome = true ∧
      (ep_get_channel_data st channel_id dsId start_idx end_idx K).data = ⟨[], []⟩) := by
  refine ⟨?_, ?_, ?_, ?_⟩
  · intro h1 h2 dsId
    have hres : resolveDataset st dsId = none := by
      cases dsId with
      | none => simp [resolveDataset, h2]
      | some i => by_cases hi : i = "" <;> simp [resolveDataset, h1, h2, hi, alookup]
    simp [ep_get_channel_data, hmode, get_multi_channel_channel_data, hres]
  · intro i hi
    have hres : resolveDataset st (some i) = resolveDataset st none := by
      rcases hi with hi | hi
      · simp [resolveDataset, hi]
      · by_cases he : i = "" <;> simp [resolveDataset, he, hi]
    simp only [ep_get_channel_data, hmode, if_true]
    unfold get_multi_channel_channel_data
    rw [hres]
  · intro ds dsId hres hlarge hch
    have hslice : small_channel_slice ds channel_id start_idx end_idx K = ⟨[], []⟩ := by
      simp [small_channel_slice, hch]
    simp [ep_get_channel_data, hmode, get_multi_channel_channel_data, hres, hlarge,
      hslice]
  · intro ds dsId h hres hlarge hh hch
    have hbig : get_multi_channel_channel_data st dsId channel_id start_idx end_idx K
        = .error ("missing channel cache: " ++ channel_id) := by
      simp [get_multi_channel_channel_data, hres, hlarge, hh, handler_get_channel_data,
        hch, Except.map]
    constructor <;> simp [ep_get_channel_data, hmode, hbig]

/-- Witness for the amended C9: unknown channel on a resolved small
dataset yields the empty series with no error envelope. -/
theorem notfound_C9_amended_witness :
    ep_get_channel_data exMcSt "zz" (some "d1") 0 none 10 = ⟨none, ⟨[], []⟩⟩ :=
  (notfound_C9_amended exMcSt "zz" 0 none 10 rfl).2.2.1 exDs (some "d1") (by decide)
    rfl (by decide)

/-! ### Alignment endpoint semantics (C8) -/

theorem alookup_set (l : List (String × ℚ)) (k : String) (v : ℚ) (k' : String) :
    alookup (l.map (fun p => if p.1 = k then (p.1, v) else p)) k'
      = if k' = k then (alookup l k').map (fun _ => v) else alookup l k' := by
  induction l with
  | nil => by_cases h : k' = k <;> simp [alookup, h]
  | cons hd t ih =>
    obtain ⟨a, w⟩ := hd
    simp only [List.map_cons]
    by_cases h1 : a = k
    · subst h1
      rw [if_pos rfl]
      by_cases h2 : k' = a
      · subst h2
        simp [alookup]
      · have h2' : ¬ (a = k') := fun h => h2 h.symm
        simp only [alookup, if_neg h2']
        rw [ih]
    · rw [if_neg (by simpa using h1)]
      by_cases h2 : a = k'
      · subst h2
        have hk : ¬ (a = k) := h1
        simp [alookup, hk]
      · simp only [alookup, if_neg h2]
        exact ih

theorem alookup_append_none (l : List (String × ℚ)) (k : String) (v : ℚ) (k' : String)
    (h : alookup l k' = none) :
    alookup (l ++ [(k, v)]) k' = if k = k' then some v else none := by
  induction l with
  | nil => simp [alookup]
  | cons hd t ih =>
    obtain ⟨a, w⟩ := hd
    by_cases h2 : a = k'
    · simp [alookup, h2] at h
    · simp only [List.cons_append, alookup, if_neg h2] at h ⊢
      exact ih h

theorem alookup_append_some (l : List (String × ℚ)) (k : String) (v : ℚ) (k' : String)
    (w : ℚ) (h : alookup l k' = some w) :
    alookup (l ++ [(k, v)]) k' = some w := by
  induction l with
  | nil => simp [alookup] at h
  | cons hd t ih =>
    obtain ⟨a, u⟩ := hd
    by_cases h2 : a = k'
    · simp only [List.cons_append, alookup, if_pos h2] at h ⊢
      exact h
    · simp only [List.cons_append, alookup, if_neg h2] at h ⊢
      exact ih h

theorem alookup_upsert_self (l : List (String × ℚ)) (k : String) (v : ℚ) :
    alookup (upsert l k v) k = some v := by
  unfold upsert
  by_cases h : (alookup l k).isSome
  · rw [if_pos h, alookup_set, if_pos rfl]
    obtain ⟨w, hw⟩ := Option.isSome_iff_exists.mp h
    rw [hw]
    rfl
  · rw [if_neg h]
    have hnone : alookup l k = none := Option.not_isSome_iff_eq_none.mp h
    rw [alookup_append_none l k v k hnone, if_pos rfl]

theorem alookup_upsert_other (l : List (String × ℚ)) (k : String) (v : ℚ) (k' : String)
    (h : k' ≠ k) : alookup (upsert l k v) k' = alookup l k' := by
  unfold upsert
  by_cases hs : (alookup l k).isSome
  · rw [if_pos hs, alookup_set, if_neg h]
  · rw [if_neg hs]
    cases hk' : alookup l k' with
    | none => rw [alookup_append_none l k v k' hk', if_neg (fun he => h he.symm)]
    | some w => exact alookup_append_some l k v k' w hk'

theorem alignLoop_ref_preserved (st : MSD) (ch : String) (s e : Option ℚ) (K : ℕ)
    (refId : String) (refY : List ℚ) (dt : ℚ) :
    ∀ ids acc, alookup acc refId = some 0 →
      ∀ res, alignLoop st ch s e K refId refY dt ids acc = .ok res →
        alookup res refId = some 0 := by
  intro ids
  induction ids with
  | nil =>
    intro acc hacc res hres
    simp only [alignLoop] at hres
    cases hres
    exact hacc
  | cons id rest ih =>
    intro acc hacc res hres
    simp only [alignLoop] at hres
    by_cases hid : id = refId
    · rw [if_pos hid] at hres
      exact ih acc hacc res hres
    · rw [if_neg hid] at hres
      have hne : refId ≠ id := fun he => hid he.symm
      cases hgas : get_alignment_series st id ch s e K with
      | error m =>
        rw [hgas] at hres
        cases hres
      | ok o =>
        rw [hgas] at hres
        cases o with
        | none =>
          refine ih _ ?_ res hres
          rw [alookup_upsert_other _ _ _ _ hne]
          exact hacc
        | some p =>
          obtain ⟨tx, ty⟩ := p
          have hres' : (if ty.length < 2 then
              alignLoop st ch s e K refId refY dt rest (upsert acc id 0)
            else
              alignLoop st ch s e K refId refY dt rest
                (upsert acc id (((cross_correlate_lag refY ty : ℤ) : ℚ) * dt)))
              = Except.ok res := hres
          by_cases hlen : ty.length < 2
          · rw [if_pos hlen] at hres'
            refine ih _ ?_ res hres'
            rw [alookup_upsert_other _ _ _ _ hne]
            exact hacc
          · rw [if_neg hlen] at hres'
            refine ih _ ?_ res hres'
            rw [alookup_upsert_other _ _ _ _ hne]
            exact hacc

theorem alignLoop_mem (st : MSD) (ch : String) (s e : Option ℚ) (K : ℕ)
    (refId : String) (refY : List ℚ) (dt : ℚ) (id : String) (hne : id ≠ refId) :
    ∀ ids acc,
      (alookup acc id = some (alignExpectedOffset st ch s e K refY dt id) ∨ id ∈ ids) →
      ∀ res, alignLoop st ch s e K refId refY dt ids acc = .ok res →
        alookup res id = some (alignExpectedOffset st ch s e K refY dt id) := by
  intro ids
  induction ids with
  | nil =>
    intro acc hacc res hres
    simp only [alignLoop] at hres
    cases hres
    rcases hacc with h | h
    · exact h
    · simp at h
  | cons hd rest ih =>
    intro acc hacc res hres
    simp only [alignLoop] at hres
    by_cases hhd : hd = refId
    · rw [if_pos hhd] at hres
      refine ih acc ?_ res hres
      rcases hacc with h | h
      · exact Or.inl h
      · rcases List.mem_cons.mp h with h | h
        · exact absurd (h.trans hhd) hne
        · exact Or.inr h
    · rw [if_neg hhd] at hres
      cases hgas : get_alignment_series st hd ch s e K with
      | error m =>
        rw [hgas] at hres
        cases hres
      | ok o =>
        rw [hgas] at hres
        cases o with
        | none =>
          refine ih _ ?_ res hres
          by_cases hidhd : id = hd
          · subst hidhd
            left
            rw [alookup_upsert_self]
            unfold alignExpectedOffset
            rw [hgas]
          · rcases hacc with h | h
            · left
              rw [alookup_upsert_other _ _ _ _ hidhd]
              exact h
            · rcases List.mem_cons.mp h with h | h
              · exact absurd h hidhd
              · exact Or.inr h
        | some p =>
          obtain ⟨tx, ty⟩ := p
          have hres' : (if ty.length < 2 then
              alignLoop st ch s e K refId refY dt rest (upsert acc hd 0)
            else
              alignLoop st ch s e K refId refY dt rest
                (upsert acc hd (((cross_correlate_lag refY ty : ℤ) : ℚ) * dt)))
              = Except.ok res := hres
          by_cases hlen : ty.length < 2
          · rw [if_pos hlen] at hres'
            refine ih _ ?_ res hres'
            by_cases hidhd : id = hd
            · subst hidhd
              left
              rw [alookup_upsert_self]
              unfold alignExpectedOffset
              rw [hgas]
              show some 0 = some (if ty.length < 2 then 0
                else ((cross_correlate_lag refY ty : ℤ) : ℚ) * dt)
              rw [if_pos hlen]
            · rcases hacc with h | h
              · left
                rw [alookup_upsert_other _ _ _ _ hidhd]
                exact h
              · rcases List.mem_cons.mp h with h | h
                · exact absurd h hidhd
                · exact Or.inr h
          · rw [if_neg hlen] at hres'
            refine ih _ ?_ res hres'
            by_cases hidhd : id = hd
            · subst hidhd
              left
              rw [alookup_upsert_self]
              unfold alignExpectedOffset
              rw [hgas]
              show some (((cross_correlate_lag refY ty : ℤ) : ℚ) * dt)
                = some (if ty.length < 2 then 0
                  else ((cross_correlate_lag refY ty : ℤ) : ℚ) * dt)
              rw [if_neg hlen]
            · rcases hacc with h | h
              · left
                rw [alookup_upsert_other _ _ _ _ hidhd]
                exact h
              · rcases List.mem_cons.mp h with h | h
                · exact absurd h hidhd
                · exact Or.inr h

/-- C8 counterexample: with a constant reference time array `[0, 0, 0]`
the median inter-sample delta is `0`; the code silently replaces the
zero `dt` by `1.0` and stores offset `lag * 1 = 1` for `d2`, while the
claim's formula `lag * median_dt = lag * 0 = 0` predicts `0`. -/
theorem align_C8_counterexample :
    medianQ (diffList [(0:ℚ), 0, 0]) = 0 ∧
    align_multi_channel_datasets exAlSt ["d1", "d2"] "c" none none none
      = .ok ⟨none, [("d1", 0), ("d2", 1)]⟩ ∧
    ((1:ℚ) ≠ ((cross_correlate_lag [(0:ℚ), 1, 0] [(1:ℚ), 0, 0] : ℤ) : ℚ)
      * medianQ (diffList [(0:ℚ), 0, 0])) := by
  have hd : diffList [(0:ℚ), 0, 0] = [0 - 0, 0 - 0] := rfl
  have hd2 : diffList [(0:ℚ), 0, 0] = [0, 0] := by rw [hd]; norm_num
  have hdt0 : medianQ (diffList [(0:ℚ), 0, 0]) = 0 := by
    rw [hd2]
    norm_num [medianQ, List.insertionSort, List.orderedInsert]
  have hdt : alignDt [(0:ℚ), 0, 0] = 1 := by
    unfold alignDt
    simp only [List.length_cons, List.length_nil]
    norm_num [hdt0]
  have hms1 : meanSub [(0:ℚ), 1, 0] = [-(1/3), 2/3, -(1/3)] := by
    norm_num [meanSub, meanQ, List.sum_cons, List.sum_nil]
  have hms2 : meanSub [(1:ℚ), 0, 0] = [2/3, -(1/3), -(1/3)] := by
    norm_num [meanSub, meanQ, List.sum_cons, List.sum_nil]
  have hf0 : corrFull [-(1/3 : ℚ), 2/3, -(1/3)] [2/3, -(1/3), -(1/3)] 0 = 1/9 := by
    norm_num [corrFull, Finset.sum_range_succ, zext, List.getD,
      show Int.toNat 0 = 0 from rfl, show Int.toNat 1 = 1 from rfl,
      show Int.toNat 2 = 2 from rfl, show Int.toNat 3 = 3 from rfl,
      show Int.toNat 4 = 4 from rfl]
  have hf1 : corrFull [-(1/3 : ℚ), 2/3, -(1/3)] [2/3, -(1/3), -(1/3)] 1 = -(1/9) := by
    norm_num [corrFull, Finset.sum_range_succ, zext, List.getD,
      show Int.toNat 0 = 0 from rfl, show Int.toNat 1 = 1 from rfl,
      show Int.toNat 2 = 2 from rfl, show Int.toNat 3 = 3 from rfl,
      show Int.toNat 4 = 4 from rfl]
  have hf2 : corrFull [-(1/3 : ℚ), 2/3, -(1/3)] [2/3, -(1/3), -(1/3)] 2 = -(1/3) := by
    norm_num [corrFull, Finset.sum_range_succ, zext, List.getD,
      show Int.toNat 0 = 0 from rfl, show Int.toNat 1 = 1 from rfl,
      show Int.toNat 2 = 2 from rfl, show Int.toNat 3 = 3 from rfl,
      show Int.toNat 4 = 4 from rfl]
  have hf3 : corrFull [-(1/3 : ℚ), 2/3, -(1/3)] [2/3, -(1/3), -(1/3)] 3 = 5/9 := by
    norm_num [corrFull, Finset.sum_range_succ, zext, List.getD,
      show Int.toNat 0 = 0 from rfl, show Int.toNat 1 = 1 from rfl,
      show Int.toNat 2 = 2 from rfl, show Int.toNat 3 = 3 from rfl,
      show Int.toNat 4 = 4 from rfl]
  have hf4 : corrFull [-(1/3 : ℚ), 2/3, -(1/3)] [2/3, -(1/3), -(1/3)] 4 = -(2/9) := by
    norm_num [corrFull, Finset.sum_range_succ, zext, List.getD,
      show Int.toNat 0 = 0 from rfl, show Int.toNat 1 = 1 from rfl,
      show Int.toNat 2 = 2 from rfl, show Int.toNat 3 = 3 from rfl,
      show Int.toNat 4 = 4 from rfl]
  have harg : npArgmax (corrFull [-(1/3 : ℚ), 2/3, -(1/3)] [2/3, -(1/3), -(1/3)]) 5
      = 3 := by
    apply npArgmax_eq_of_unique _ _ 3 (by norm_num)
    intro k hk hne
    interval_cases k
    · rw [hf0, hf3]; norm_num
    · rw [hf1, hf3]; norm_num
    · rw [hf2, hf3]; norm_num
    · exact absurd rfl hne
    · rw [hf4, hf3]; norm_num
  have hlag : cross_correlate_lag [(0:ℚ), 1, 0] [(1:ℚ), 0, 0] = 1 := by
    unfold cross_correlate_lag
    rw [hms1, hms2]
    simp only [List.length_cons, List.length_nil]
    rw [show (3 + 3 - 1 : ℕ) = 5 from rfl, harg]
    norm_num
  have h1 : align_multi_channel_datasets exAlSt ["d1", "d2"] "c" none none none
      = match alignLoop exAlSt "c" none none (alignTargetPoints none) "d1" [0, 1, 0]
          (alignDt [(0:ℚ), 0, 0]) ["d1", "d2"] [("d1", 0)] with
        | .error msg => .error msg
        | .ok offsets => .ok ⟨none, offsets⟩ := rfl
  have hloop : alignLoop exAlSt "c" none none (alignTargetPoints none) "d1" [0, 1, 0]
      (alignDt [(0:ℚ), 0, 0]) ["d1", "d2"] [("d1", 0)]
      = .ok [("d1", 0),
          ("d2", ((cross_correlate_lag [(0:ℚ), 1, 0] [(1:ℚ), 0, 0] : ℤ) : ℚ)
            * alignDt [(0:ℚ), 0, 0])] := rfl
  have hv : ((cross_correlate_lag [(0:ℚ), 1, 0] [(1:ℚ), 0, 0] : ℤ) : ℚ)
      * alignDt [(0:ℚ), 0, 0] = 1 := by
    rw [hlag, hdt]
    norm_num
  refine ⟨hdt0, ?_, ?_⟩
  · rw [h1, hloop, hv]
  · rw [hlag, hdt0]
    norm_num

/-- C8 (amended): (i) fewer than two dataset ids yields the error
envelope with an empty offsets map; (ii) an absent reference (dataset or
channel not found, or empty) yields the not-found envelope with empty
offsets; (iii) a reference with fewer than 2 time or value samples
yields the insufficient-data envelope with empty offsets; (iv) on
success there is no error, the reference dataset receives offset `0`,
and every other requested dataset receives exactly the value the loop
body stores: `0` when its series is absent or shorter than 2 samples,
else its integer lag against the reference times `dt`, where `dt` is
the median inter-sample delta of the reference times REPLACED BY `1.0`
whenever that median is `0` (not only when it is non-finite). -/
theorem align_C8_amended (st : MSD) (dataset_ids : List String) (channel_id : String)
    (reference_dataset_id : Option String) (cut_range : Option (ℚ × ℚ))
    (target_points_req : Option ℕ) :
    (dataset_ids.length < 2 →
      align_multi_channel_datasets st dataset_ids channel_id reference_dataset_id
        cut_range target_points_req
        = .ok ⟨some "Need at least two datasets to align", []⟩) ∧
    (2 ≤ dataset_ids.length →
      get_alignment_series st (alignRefId dataset_ids reference_dataset_id) channel_id
          (cut_range.map Prod.fst) (cut_range.map Prod.snd)
          (alignTargetPoints target_points_req) = .ok none →
      align_multi_channel_datasets st dataset_ids channel_id reference_dataset_id
        cut_range target_points_req
        = .ok ⟨some "Reference dataset or channel not found", []⟩) ∧
    (∀ rx ry, 2 ≤ dataset_ids.length →
      get_alignment_series st (alignRefId dataset_ids reference_dataset_id) channel_id
          (cut_range.map Prod.fst) (cut_range.map Prod.snd)
          (alignTargetPoints target_points_req) = .ok (some (rx, ry)) →
      rx.length < 2 ∨ ry.length < 2 →
      align_multi_channel_datasets st dataset_ids channel_id reference_dataset_id
        cut_range target_points_req
        = .ok ⟨some "Reference dataset has insufficient data", []⟩) ∧
    (∀ rx ry r, 2 ≤ dataset_ids.length →
      get_alignment_series st (alignRefId dataset_ids reference_dataset_id) channel_id
          (cut_range.map Prod.fst) (cut_range.map Prod.snd)
          (alignTargetPoints target_points_req) = .ok (some (rx, ry)) →
      2 ≤ rx.length → 2 ≤ ry.length →
      align_multi_channel_datasets st dataset_ids channel_id reference_dataset_id
        cut_range target_points_req = .ok r →
      r.err = none ∧
      alookup r.offsets (alignRefId dataset_ids reference_dataset_id) = some 0 ∧
      (∀ id ∈ dataset_ids, id ≠ alignRefId dataset_ids reference_dataset_id →
        alookup r.offsets id
          = some (alignExpectedOffset st channel_id (cut_range.map Prod.fst)
              (cut_range.map Prod.snd) (alignTargetPoints target_points_req) ry
              (alignDt rx) id))) := by
  refine ⟨?_, ?_, ?_, ?_⟩
  · intro hlt
    unfold align_multi_channel_datasets
    rw [if_pos hlt]
  · intro hge hgas
    unfold align_multi_channel_datasets
    simp only []
    rw [if_neg (by omega), hgas]
  · intro rx ry hge hgas hshort
    unfold align_multi_channel_datasets
    simp only []
    rw [if_neg (by omega), hgas]
    simp only [if_pos hshort]
  · intro rx ry r hge hgas hrx hry halign
    unfold align_multi_channel_datasets at halign
    simp only [] at halign
    rw [if_neg (by omega), hgas] at halign
    have halign' : (if rx.length < 2 ∨ ry.length < 2 then
        Except.ok (⟨some "Reference dataset has insufficient data", []⟩ : AlignResp)
      else
        match alignLoop st channel_id (cut_range.map Prod.fst) (cut_range.map Prod.snd)
            (alignTargetPoints target_points_req)
            (alignRefId dataset_ids reference_dataset_id) ry (alignDt rx) dataset_ids
            [(alignRefId dataset_ids reference_dataset_id, 0)] with
        | Except.error msg => Except.error msg
        | Except.ok offsets => Except.ok (⟨none, offsets⟩ : AlignResp))
        = Except.ok r := halign
    rw [if_neg (by omega : ¬ (rx.length < 2 ∨ ry.length < 2))] at halign'
    cases hloop : alignLoop st channel_id (cut_range.map Prod.fst)
        (cut_range.map Prod.snd) (alignTargetPoints target_points_req)
        (alignRefId dataset_ids reference_dataset_id) ry (alignDt rx) dataset_ids
        [(alignRefId dataset_ids reference_dataset_id, 0)] with
    | error m =>
      rw [hloop] at halign'
      cases halign'
    | ok offs =>
      rw [hloop] at halign'
      rw [Except.ok.injEq] at halign'
      subst halign'
      refine ⟨rfl, ?_, ?_⟩
      · exact alignLoop_ref_preserved st channel_id (cut_range.map Prod.fst)
          (cut_range.map Prod.snd) (alignTargetPoints target_points_req)
          (alignRefId dataset_ids reference_dataset_id) ry (alignDt rx) dataset_ids
          [(alignRefId dataset_ids reference_dataset_id, 0)]
          (by simp [alookup]) offs hloop
      · intro id hid hne
        exact alignLoop_mem st channel_id (cut_range.map Prod.fst)
          (cut_range.map Prod.snd) (alignTargetPoints target_points_req)
          (alignRefId dataset_ids reference_dataset_id) ry (alignDt rx) id hne
          dataset_ids [(alignRefId dataset_ids reference_dataset_id, 0)]
          (Or.inr hid) offs hloop

/-- Witness for the amended C8 at a concrete short request. -/
theorem align_C8_amended_witness :
    align_multi_channel_datasets exAlSt ["d1"] "c" none none none
      = .ok ⟨some "Need at least two datasets to align", []⟩ :=
  (align_C8_amended exAlSt ["d1"] "c" none none none).1 (by decide)
